import Mathlib

set_option linter.unusedVariables false

namespace ChickSMS

/-!
Shallow embedding of the ChickSMS outbound relay core: the global SMS queue
and processor of the canonical routes file (router /send, /retry/:id, /bulk,
processNextSMSInQueue, addToSMSQueue) and the MQTT confirmation correlator
(MqttService.handleIncomingMessage).  Machine times are Nat milliseconds;
database rows are in-memory lists; the asynchronous processor cycle is one
atomic step whose internal waits advance the clock (the runtime is a
single-threaded event loop and the isProcessingQueue flag bars overlap, so
cycles never interleave).  Database operations are modelled as always
succeeding (the exception-free semantics of the code).
-/

/-- Inter-send delay of 45000 ms (DELAY_BETWEEN_MESSAGES in the routes file). -/
def DELAY_BETWEEN_MESSAGES : Nat := 45000

/-- Application-level retry cap enforced by the retry endpoint
(the check smsLog.retryCount >= 3). -/
def MAX_RETRIES : Nat := 3

/-- Bulk request cap (MAX_BULK_REQUEST). -/
def MAX_BULK_REQUEST : Nat := 1000

/-- One row of the sms_logs table (a DeliveryRecord). -/
structure SmsLog where
  id : Nat
  phoneNumber : String
  message : String
  status : String
  retryCount : Nat
  errorMsg : Option String
  sentAt : Option Nat
  createdAt : Nat
  updatedAt : Nat
deriving DecidableEq

/-- One in-memory entry of smsQueue (a QueueEntry). -/
structure QueueItem where
  phone : String
  message : String
  smsId : Nat
  addedAt : Nat
deriving DecidableEq

/-- One row of the incoming_sms table (an IncomingMessage). -/
structure IncomingSms where
  phoneNumber : String
  message : String
  receivedAt : Int
deriving DecidableEq

/-- Which code path performed a status update (ghost information used to
state temporal properties; it does not influence behaviour). -/
inductive UpdateSource
  | processor
  | retryEndpoint
  | correlator
deriving DecidableEq

/-- Ghost log entry: one status write to the store. -/
structure StatusChange where
  time : Nat
  smsId : Nat
  fromStatus : String
  toStatus : String
  source : UpdateSource
deriving DecidableEq

/-- Global system state: sms_logs rows (newest first), the in-memory
smsQueue, incoming_sms rows, the clock, the id counter, and the ghost
log of status writes (newest first). -/
structure SysState where
  records : List SmsLog
  smsQueue : List QueueItem
  inbox : List IncomingSms
  time : Nat
  nextId : Nat
  log : List StatusChange
deriving DecidableEq

/-! String helpers mirroring the JavaScript operations on the ASCII data
of the wire contract. -/

/-- Decimal digit test (the regex class \d). -/
def isDigitCh (c : Char) : Bool := '0' ≤ c && c ≤ '9'

/-- Characters removed by phoneNumber.replace of the class [\s\-\(\)]. -/
def isStrippedChar (c : Char) : Bool :=
  c = ' ' || c = '\t' || c = '\n' || c = '\r' || c = '\x0b' || c = '\x0c' ||
  c = '-' || c = '(' || c = ')'

/-- The replace call that strips whitespace, dashes and parentheses. -/
def stripPhone (s : String) : String :=
  String.mk (s.toList.filter (fun c => !(isStrippedChar c)))

/-- Test of the validation regex of the intake route:
optional leading plus, a first digit 1-9, then 1 to 14 further digits. -/
def phoneRegexTest (s : String) : Bool :=
  match s.toList with
  | [] => false
  | c :: cs =>
    let body := if c = '+' then cs else c :: cs
    match body with
    | [] => false
    | d :: ds =>
      ('1' ≤ d && d ≤ '9') && ds.all isDigitCh && 1 ≤ ds.length && ds.length ≤ 14

/-- Uppercase an ASCII string (status.toUpperCase() on wire statuses). -/
def toUpperStr (s : String) : String := String.mk (s.toList.map Char.toUpper)

/-- Lowercase an ASCII string (status.toLowerCase() on wire statuses). -/
def toLowerStr (s : String) : String := String.mk (s.toList.map Char.toLower)

/-- Split a character list at pipe characters. -/
def splitPipeAux : List Char → List (List Char)
  | [] => [[]]
  | c :: cs =>
    if c = '|' then [] :: splitPipeAux cs
    else
      match splitPipeAux cs with
      | [] => [[c]]
      | g :: gs => (c :: g) :: gs

/-- message.split of the pipe character, as in handleIncomingMessage. -/
def splitPipe (s : String) : List String := (splitPipeAux s.toList).map String.mk

/-- Value of a digit list read as a decimal number. -/
def digitsToNat (cs : List Char) : Nat :=
  cs.foldl (fun a c => a * 10 + (c.toNat - '0'.toNat)) 0

/-- Model of parseInt on the decimal forms exchanged on the wire: skip
leading whitespace, an optional sign, then a maximal run of digits; none
when no digit is found (parseInt returning NaN).  The hexadecimal radix
corner of parseInt is not exercised by the wire contract. -/
def parseIntJS (str : String) : Option Int :=
  let cs := str.toList.dropWhile (fun c => c = ' ' || c = '\t' || c = '\n' || c = '\r')
  let signAndRest : Int × List Char :=
    match cs with
    | '-' :: t => (-1, t)
    | '+' :: t => (1, t)
    | t => (1, t)
  let digits := signAndRest.2.takeWhile isDigitCh
  if digits.isEmpty then none
  else some (signAndRest.1 * (Int.ofNat (digitsToNat digits)))

/-! Store access.  sms_logs rows are kept newest first, so a findFirst with
orderBy createdAt desc is a find? on the list; prisma updates by unique id
are a map guarded on the id. -/

/-- prisma.smsLog.findUnique on an id. -/
def findRecord (s : SysState) (i : Nat) : Option SmsLog :=
  s.records.find? (fun r => r.id == i)

/-- prisma.smsLog.update on an id: rewrite the row carrying that id. -/
def updateRecord (recs : List SmsLog) (i : Nat) (f : SmsLog → SmsLog) : List SmsLog :=
  recs.map (fun r => if r.id == i then f r else r)

/-- Status of the row carrying an id, if any. -/
def recStatusOf (s : SysState) (i : Nat) : Option String :=
  (findRecord s i).map (fun r => r.status)

/-! Intake gate: router.post /send. -/

/-- Outcome of the /send route. -/
inductive SendResult
  | missingFields
  | invalidPhone
  | queued (smsId : Nat) (queuePosition : Nat)
deriving DecidableEq

/-- addToSMSQueue: push a queue entry at the back. -/
def addToSMSQueue (s : SysState) (phone msg : String) (smsId : Nat) : SysState :=
  { s with smsQueue := s.smsQueue ++ [{ phone := phone, message := msg, smsId := smsId, addedAt := s.time }] }

/-- Row created by the /send and /bulk routes: status QUEUED, zero
retries, no error. -/
def newRow (s : SysState) (phone msg : String) : SmsLog :=
  { id := s.nextId, phoneNumber := phone, message := msg, status := "QUEUED",
    retryCount := 0, errorMsg := none, sentAt := none,
    createdAt := s.time, updatedAt := s.time }

/-- The /send route: require both fields, validate the stripped phone
number against the regex, create a QUEUED sms_logs row, enqueue it, and
answer at once with the id and queue position. -/
def sendSMS (s : SysState) (phone msg : String) : SysState × SendResult :=
  if phone = "" || msg = "" then (s, .missingFields)
  else if !(phoneRegexTest (stripPhone phone)) then (s, .invalidPhone)
  else
    let row := newRow s phone msg
    let s1 : SysState := { s with records := row :: s.records, nextId := s.nextId + 1 }
    let s2 := addToSMSQueue s1 phone msg row.id
    (s2, .queued row.id s2.smsQueue.length)

/-! Retry endpoint: router.post /retry/:id.  The publish outcome of
mqttService.publishMessage is the publishOk oracle of the step. -/

/-- Outcome of the /retry/:id route. -/
inductive RetryResult
  | notFound
  | alreadySent
  | retryLimit
  | retryQueued
  | retryFailed
deriving DecidableEq

/-- Row rewrite of a successful retry publish: status PENDING, counter
incremented from the fetched row, error cleared. -/
def retryOkFun (now : Nat) (r : SmsLog) : SmsLog → SmsLog :=
  fun q =>
    { q with status := "PENDING", retryCount := r.retryCount + 1,
             errorMsg := none, updatedAt := now }

/-- Row rewrite of a failed retry publish: status FAILED, counter still
incremented, broker error recorded. -/
def retryFailFun (now : Nat) (r : SmsLog) : SmsLog → SmsLog :=
  fun q =>
    { q with status := "FAILED", retryCount := r.retryCount + 1,
             errorMsg := some "Failed to publish to MQTT broker", updatedAt := now }

/-- The /retry/:id route: 404 when the row is missing, 400 when it is
already SENT, 400 when retryCount has reached 3; otherwise publish the
pipe message directly to the broker and on success set PENDING with the
counter incremented and the error cleared, on failure set FAILED with the
broker error and the counter still incremented. -/
def retrySMS (s : SysState) (i : Nat) (publishOk : Bool) : SysState × RetryResult :=
  match findRecord s i with
  | none => (s, .notFound)
  | some r =>
    if r.status = "SENT" then (s, .alreadySent)
    else if MAX_RETRIES ≤ r.retryCount then (s, .retryLimit)
    else if publishOk then
      ({ s with
          records := updateRecord s.records i (retryOkFun s.time r),
          log := { time := s.time, smsId := i, fromStatus := r.status,
                   toStatus := "PENDING", source := .retryEndpoint } :: s.log },
        .retryQueued)
    else
      ({ s with
          records := updateRecord s.records i (retryFailFun s.time r),
          log := { time := s.time, smsId := i, fromStatus := r.status,
                   toStatus := "FAILED", source := .retryEndpoint } :: s.log },
        .retryFailed)

/-! Confirmation correlator: MqttService.handleIncomingMessage. -/

/-- Row rewrite applied by the status branch of handleIncomingMessage:
store the uppercased wire status; a sent report also sets sentAt and
clears errorMsg; a failed report stores the device reason or the default
delivery-failed text. -/
def correlatorUpdateFun (now : Nat) (statusStr errStr : String) : SmsLog → SmsLog :=
  fun q =>
    let q1 : SmsLog := { q with status := toUpperStr statusStr, updatedAt := now }
    if toLowerStr statusStr = "sent" then { q1 with sentAt := some now, errorMsg := none }
    else if toLowerStr statusStr = "failed" then
      { q1 with errorMsg := some (if errStr = "" then "SMS delivery failed" else errStr) }
    else q1

/-- The findFirst of the status branch: most recent row for the phone
number whose status is PENDING, RETRY or QUEUED. -/
def correlatorFind (recs : List SmsLog) (phone : String) : Option SmsLog :=
  recs.find? (fun r =>
    r.phoneNumber == phone &&
    (r.status == "PENDING" || r.status == "RETRY" || r.status == "QUEUED"))

/-- Status branch of handleIncomingMessage (topic sms/status): parse the
pipe payload, look up the most recent unconfirmed row for the phone
number, and either rewrite that row or log a correlation miss and leave
everything unchanged. -/
def handleStatusMessage (s : SysState) (msg : String) : SysState :=
  let parts := splitPipe msg
  if parts.length < 2 then s
  else
    let phone := parts.getD 0 ""
    let statusStr := parts.getD 1 ""
    let errStr := parts.getD 2 ""
    match correlatorFind s.records phone with
    | none => s
    | some r =>
      { s with
          records := updateRecord s.records r.id (correlatorUpdateFun s.time statusStr errStr),
          log := { time := s.time, smsId := r.id, fromStatus := r.status,
                   toStatus := toUpperStr statusStr, source := .correlator } :: s.log }

/-- Timestamp stored by the incoming branch: the server clock unless the
device field parses to a number of at least 10^12, which is then trusted
as an absolute epoch timestamp. -/
def jsReceiveTime (now : Nat) (tsStr : String) : Int :=
  if tsStr = "" then (now : Int)
  else
    match parseIntJS tsStr with
    | none => (now : Int)
    | some n => if n < 1000000000000 then (now : Int) else n

/-- Incoming branch of handleIncomingMessage (topic sms/incoming): parse
the pipe payload and create an incoming_sms row. -/
def handleIncomingSmsMessage (s : SysState) (msg : String) : SysState :=
  let parts := splitPipe msg
  if parts.length < 2 then s
  else
    { s with
        inbox := { phoneNumber := parts.getD 0 "", message := parts.getD 1 "",
                   receivedAt := jsReceiveTime s.time (parts.getD 2 "") } :: s.inbox }

/-! Queue processor: processNextSMSInQueue as one atomic step.  The
connected flag is the getConnectionStatus oracle and failCount the number
of consecutive publishMessage failures (3 or more means all attempts of
the retry loop fail).  Waits inside the cycle advance the clock: 10000 ms
in the reconnect branch, 3000 ms of backoff after each failed attempt but
the last, and the 45000 ms inter-send delay after the publish loop. -/
/-- Row rewrite of the dequeue step of a cycle: status PENDING. -/
def pendFun (now : Nat) : SmsLog → SmsLog :=
  fun q => { q with status := "PENDING", updatedAt := now }

/-- Row rewrite of an exhausted publish loop: status FAILED with the
fixed broker-exhaustion reason; retryCount untouched. -/
def failFun (now : Nat) : SmsLog → SmsLog :=
  fun q =>
    { q with status := "FAILED",
             errorMsg := some "Failed to send to Arduino after retries",
             updatedAt := now }

def processCycle (s : SysState) (connected : Bool) (failCount : Nat) : SysState :=
  match s.smsQueue with
  | [] => s
  | item :: rest =>
    let oldStatus := recStatusOf s item.smsId
    let recs1 := updateRecord s.records item.smsId (pendFun s.time)
    let log1 :=
      match oldStatus with
      | some st =>
        ({ time := s.time, smsId := item.smsId, fromStatus := st,
           toStatus := "PENDING", source := .processor } : StatusChange) :: s.log
      | none => s.log
    if !connected then
      { s with records := recs1, log := log1, smsQueue := item :: rest,
               time := s.time + 10000 }
    else if failCount < 3 then
      { s with records := recs1, log := log1, smsQueue := rest,
               time := s.time + failCount * 3000 + DELAY_BETWEEN_MESSAGES }
    else
      let recs2 := updateRecord recs1 item.smsId (failFun (s.time + 6000))
      let log2 :=
        match oldStatus with
        | some _ =>
          ({ time := s.time + 6000, smsId := item.smsId, fromStatus := "PENDING",
             toStatus := "FAILED", source := .processor } : StatusChange) :: log1
        | none => log1
      { s with records := recs2, log := log2, smsQueue := rest,
               time := s.time + 6000 + DELAY_BETWEEN_MESSAGES }

/-! Trace machine: the observable inputs of the subsystem as labels, one
step function, and runs from the empty initial state. -/

/-- One external input to the subsystem. -/
inductive Label
  | send (phone msg : String)
  | retryReq (i : Nat) (publishOk : Bool)
  | statusMsg (msg : String)
  | incomingMsg (msg : String)
  | cycle (connected : Bool) (failCount : Nat)
  | tick (dt : Nat)
deriving DecidableEq

/-- Apply one input. -/
def step (s : SysState) (l : Label) : SysState :=
  match l with
  | .send p m => (sendSMS s p m).1
  | .retryReq i ok => (retrySMS s i ok).1
  | .statusMsg m => handleStatusMessage s m
  | .incomingMsg m => handleIncomingSmsMessage s m
  | .cycle c f => processCycle s c f
  | .tick d => { s with time := s.time + d }

/-- Empty boot state of the module. -/
def init : SysState :=
  { records := [], smsQueue := [], inbox := [], time := 0, nextId := 0, log := [] }

/-- State after a list of inputs. -/
def run (ls : List Label) : SysState := ls.foldl step init

/-- Wire-contract condition on one label: a status event carries a status
whose uppercase form is SENDING, SENT or FAILED (the three statuses the
device agent publishes on sms/status). -/
def wireOk (l : Label) : Bool :=
  match l with
  | .statusMsg m =>
    let parts := splitPipe m
    if parts.length < 2 then true
    else
      let u := toUpperStr (parts.getD 1 "")
      u == "SENDING" || u == "SENT" || u == "FAILED"
  | _ => true

/-- A trace whose status events all respect the wire contract. -/
def TraceOK (ls : List Label) : Prop := ls.all wireOk = true

/-! Ghost-log views used by the temporal claims. -/

/-- A ghost entry recording a transition from QUEUED into PENDING,
whichever code path wrote it. -/
def isQP (e : StatusChange) : Bool :=
  e.fromStatus == "QUEUED" && e.toStatus == "PENDING"

/-- A ghost entry recording a processor-driven transition from QUEUED
into PENDING (a dequeue of a fresh row). -/
def isProcQP (e : StatusChange) : Bool :=
  (e.source == .processor) && isQP e

/-- Times of all QUEUED to PENDING transitions of a log, newest first. -/
def qpTimesL (L : List StatusChange) : List Nat := (L.filter isQP).map (fun e => e.time)

/-- Times of all QUEUED to PENDING transitions, newest first. -/
def qpTimes (s : SysState) : List Nat := qpTimesL s.log

/-- Times of the processor-driven QUEUED to PENDING transitions of a
log, newest first. -/
def procTimesL (L : List StatusChange) : List Nat := (L.filter isProcQP).map (fun e => e.time)

/-- Times of the processor-driven QUEUED to PENDING transitions, newest
first. -/
def procTimes (s : SysState) : List Nat := procTimesL s.log

/-- Pacing of a newest-first time list: consecutive entries at least the
inter-send delay apart. -/
def paced (ts : List Nat) : Prop :=
  List.Pairwise (fun a b => b + DELAY_BETWEEN_MESSAGES ≤ a) ts

instance (ts : List Nat) : Decidable (paced ts) := by
  unfold paced
  infer_instance

instance (ls : List Label) : Decidable (TraceOK ls) := by
  unfold TraceOK
  infer_instance

/-! Reachability invariants. -/

/-- Ids are fresh against the counter and rows are newest first. -/
def idsOK (s : SysState) : Prop :=
  (∀ r ∈ s.records, r.id < s.nextId) ∧
  (∀ it ∈ s.smsQueue, it.smsId < s.nextId) ∧
  List.Pairwise (fun a b : SmsLog => b.id < a.id) s.records

/-- Ghost entries never postdate the clock. -/
def logTimesOK (s : SysState) : Prop := ∀ e ∈ s.log, e.time ≤ s.time

/-- The queue head is a row that is no longer QUEUED (or points to no
row), so the next cycle cannot produce a fresh dequeue transition. -/
def headBlocked (s : SysState) : Prop :=
  ∃ item rest, s.smsQueue = item :: rest ∧ recStatusOf s item.smsId ≠ some "QUEUED"

/-- The newest processor dequeue transition either has already aged a
full inter-send delay, or the queue head is still the row it dequeued. -/
def recent (s : SysState) : Prop :=
  ∀ t ts, procTimes s = t :: ts → t + DELAY_BETWEEN_MESSAGES ≤ s.time ∨ headBlocked s

/-- Invariant bundle for the pacing claim. -/
def PacInv (s : SysState) : Prop :=
  idsOK s ∧ logTimesOK s ∧ paced (procTimes s) ∧ recent s

/-- Application retry budget is never exceeded. -/
def retryBoundInv (s : SysState) : Prop := ∀ r ∈ s.records, r.retryCount ≤ MAX_RETRIES

/-- Statuses a reachable row can carry under the wire contract. -/
def statusSetInv (s : SysState) : Prop :=
  ∀ r ∈ s.records, r.status ∈ (["QUEUED", "PENDING", "SENT", "FAILED", "SENDING"] : List String)

/-- Selector following the claim's words: the most recently created row
for the destination whose status is PENDING or QUEUED, to be compared
with correlatorFind, whose filter also names RETRY — a status no
reachable row carries. -/
def specFindTarget (recs : List SmsLog) (phone : String) : Option SmsLog :=
  recs.find? (fun r =>
    r.phoneNumber == phone && (r.status == "PENDING" || r.status == "QUEUED"))

/-! The claims exactly as stated, as propositions over the embedding. -/

/-- C1 as stated: on any wire-respecting execution all QUEUED to PENDING
transitions, whatever code path wrote them, are paced at least the
inter-send delay apart; and a cycle whose publish succeeds holds the
in-flight window for the full inter-send delay. -/
def claimC1Stated : Prop :=
  (∀ ls : List Label, TraceOK ls → paced (qpTimes (run ls))) ∧
  (∀ (s : SysState) (f : Nat), f < 3 → s.smsQueue ≠ [] →
    s.time + DELAY_BETWEEN_MESSAGES ≤ (processCycle s true f).time)

/-- C3 as stated: the retry budget bound holds everywhere, and retry on a
row at the limit answers exactly the retry-limit rejection with the state
unchanged. -/
def claimC3Stated : Prop :=
  (∀ ls : List Label, ∀ r ∈ (run ls).records, r.retryCount ≤ MAX_RETRIES) ∧
  (∀ (ls : List Label) (i : Nat) (ok : Bool) (r : SmsLog),
    findRecord (run ls) i = some r → MAX_RETRIES ≤ r.retryCount →
    retrySMS (run ls) i ok = (run ls, RetryResult.retryLimit))

/-- C4 as stated: when all three publish attempts of a cycle fail, the
dequeued row ends FAILED with reason relay unavailable and an unchanged
retry count, and the in-flight window is released immediately after the
failed attempts with no inter-send delay. -/
def claimC4Stated : Prop :=
  ∀ (ls : List Label) (item : QueueItem) (rest : List QueueItem) (r : SmsLog),
    (run ls).smsQueue = item :: rest →
    findRecord (run ls) item.smsId = some r →
    (∃ r', findRecord (processCycle (run ls) true 3) item.smsId = some r' ∧
      r'.status = "FAILED" ∧ r'.errorMsg = some "relay unavailable" ∧
      r'.retryCount = r.retryCount) ∧
    (processCycle (run ls) true 3).time = (run ls).time + 6000

/-- C6 as stated: on any wire-respecting execution every row status lies
in the four-element set QUEUED, PENDING, SENT, FAILED. -/
def claimC6Stated : Prop :=
  ∀ ls : List Label, TraceOK ls →
    ∀ r ∈ (run ls).records,
      r.status ∈ (["QUEUED", "PENDING", "SENT", "FAILED"] : List String)

/-- C8 as stated: every stored incoming message carries the correlator's
own receipt time, for all device-supplied timestamp values. -/
def claimC8Stated : Prop :=
  ∀ (ls : List Label) (msg : String) (e : IncomingSms),
    (handleIncomingSmsMessage (run ls) msg).inbox = e :: (run ls).inbox →
    e.receivedAt = ((run ls).time : Int)

/-- C7 as stated: a successful retry implies the row was FAILED (with
budget left) and implies the row was re-enqueued into the in-memory
delivery queue. -/
def claimC7Stated : Prop :=
  ∀ (ls : List Label) (i : Nat) (ok : Bool) (r : SmsLog),
    findRecord (run ls) i = some r →
    (retrySMS (run ls) i ok).2 = RetryResult.retryQueued →
    (r.status = "FAILED" ∧ r.retryCount < MAX_RETRIES) ∧
    (∃ it, (retrySMS (run ls) i ok).1.smsQueue = (run ls).smsQueue ++ [it] ∧ it.smsId = i)

/-! Concrete traces used by counterexamples and witnesses. -/

/-- Two rows created and both retried one millisecond apart. -/
def cexTraceC1 : List Label :=
  [.send "+15550001" "a", .send "+15550002" "b",
   .retryReq 0 true, .tick 1, .retryReq 1 true]

/-- A row retried to the limit and then confirmed SENT by the device. -/
def cexTraceC3 : List Label :=
  [.send "+15550001" "a", .retryReq 0 true, .retryReq 0 true,
   .retryReq 0 true, .statusMsg "+15550001|SENT|"]

/-- One queued row, ready for a cycle whose publish attempts all fail. -/
def cexTraceC4 : List Label := [.send "+15550001" "hi"]

/-- A queued row hit by a device SENDING report. -/
def cexTraceC6 : List Label :=
  [.send "+15550001" "hi", .statusMsg "+15550001|SENDING|x"]

/-- Round trip: send, successful cycle, device SENT report. -/
def okTrace : List Label :=
  [.send "+15550001" "hello", .cycle true 0, .statusMsg "+15550001|SENT|"]

/-- A row driven to the retry limit by three failed retry publishes. -/
def limitTrace : List Label :=
  [.send "+15550001" "a", .retryReq 0 false, .retryReq 0 false, .retryReq 0 false]

/-! Store lemmas. -/

theorem updFun_id (i : Nat) (f : SmsLog → SmsLog) (hf : ∀ r, (f r).id = r.id) (a : SmsLog) :
    (if a.id == i then f a else a).id = a.id := by
  split <;> simp [hf]

theorem find?_id_updateRecord (recs : List SmsLog) (i j : Nat) (f : SmsLog → SmsLog)
    (hf : ∀ r, (f r).id = r.id) :
    (updateRecord recs i f).find? (fun r => r.id == j) =
      (recs.find? (fun r => r.id == j)).map (fun r => if r.id == i then f r else r) := by
  induction recs with
  | nil => rfl
  | cons a as ih =>
    have hid : (if a.id == i then f a else a).id = a.id := updFun_id i f hf a
    by_cases hj : (a.id == j) = true
    · have hj' : ((fun r => r.id == j) (if a.id == i then f a else a)) = true := by
        show ((if a.id == i then f a else a).id == j) = true
        rw [hid]; exact hj
      simp only [updateRecord, List.map_cons] at ih ⊢
      rw [List.find?_cons_of_pos (p := fun (r : SmsLog) => r.id == j) _ hj',
          List.find?_cons_of_pos (p := fun (r : SmsLog) => r.id == j) _ hj]
      rfl
    · have hj' : ¬ (((fun r => r.id == j) (if a.id == i then f a else a)) = true) := by
        show ¬ ((if a.id == i then f a else a).id == j) = true
        rw [hid]; exact hj
      simp only [updateRecord, List.map_cons] at ih ⊢
      rw [List.find?_cons_of_neg (p := fun (r : SmsLog) => r.id == j) _ (by simpa using hj'),
          List.find?_cons_of_neg (p := fun (r : SmsLog) => r.id == j) _ (by simpa using hj)]
      exact ih

theorem mem_updateRecord {recs : List SmsLog} {i : Nat} {f : SmsLog → SmsLog} {r : SmsLog}
    (h : r ∈ updateRecord recs i f) :
    ∃ q ∈ recs, r = if q.id == i then f q else q := by
  rcases List.mem_map.mp h with ⟨q, hq, hqr⟩
  exact ⟨q, hq, hqr.symm⟩

theorem pairwise_ids_updateRecord {recs : List SmsLog} {i : Nat} {f : SmsLog → SmsLog}
    (hf : ∀ r, (f r).id = r.id)
    (h : List.Pairwise (fun a b : SmsLog => b.id < a.id) recs) :
    List.Pairwise (fun a b : SmsLog => b.id < a.id) (updateRecord recs i f) := by
  unfold updateRecord
  rw [List.pairwise_map]
  refine h.imp_of_mem ?_
  intro a b _ _ hab
  have ha := updFun_id i f hf a
  have hb := updFun_id i f hf b
  simp only [ha, hb]
  exact hab

theorem pairwise_id_inj {recs : List SmsLog}
    (h : List.Pairwise (fun a b : SmsLog => b.id < a.id) recs)
    {a b : SmsLog} (ha : a ∈ recs) (hb : b ∈ recs) (hid : a.id = b.id) : a = b := by
  induction recs with
  | nil => cases ha
  | cons x xs ih =>
    rcases List.pairwise_cons.mp h with ⟨hx, hxs⟩
    rcases List.mem_cons.mp ha with rfl | ha₁
    · rcases List.mem_cons.mp hb with rfl | hb₁
      · rfl
      · exact absurd (hx b hb₁) (by omega)
    · rcases List.mem_cons.mp hb with rfl | hb₁
      · exact absurd (hx a ha₁) (by omega)
      · exact ih hxs ha₁ hb₁

/-! C4 — transport exhaustion.  The code marks the row FAILED with the
fixed broker-exhaustion reason, leaves retryCount alone, and still sleeps
the full inter-send delay before releasing the in-flight flag; the stated
claim has the wrong reason text and no delay, and is refuted below. -/

/-- C4 (amended): a cycle whose three publish attempts all fail marks the
dequeued row FAILED with reason Failed to send to Arduino after retries,
leaves its retryCount unchanged, pops it from the queue, and still holds
the in-flight window for the 6000 ms of backoff plus the full 45000 ms
inter-send delay before the flag is released. -/
theorem C4_transport_exhaustion (s : SysState) (item : QueueItem) (rest : List QueueItem)
    (r : SmsLog) (hq : s.smsQueue = item :: rest) (hr : findRecord s item.smsId = some r) :
    ∃ r', findRecord (processCycle s true 3) item.smsId = some r' ∧
      r'.status = "FAILED" ∧
      r'.errorMsg = some "Failed to send to Arduino after retries" ∧
      r'.retryCount = r.retryCount ∧
      (processCycle s true 3).smsQueue = rest ∧
      (processCycle s true 3).time = s.time + 6000 + DELAY_BETWEEN_MESSAGES := by
  have hr' : List.find? (fun (q : SmsLog) => q.id == item.smsId) s.records = some r := hr
  have hone : (r.id == item.smsId) = true := by simpa using List.find?_some hr'
  have hst : recStatusOf s item.smsId = some r.status := by
    simp [recStatusOf, hr]
  have hcycle : processCycle s true 3 =
      { s with
          records := updateRecord
            (updateRecord s.records item.smsId (pendFun s.time))
            item.smsId (failFun (s.time + 6000)),
          log := ({ time := s.time + 6000, smsId := item.smsId, fromStatus := "PENDING",
                    toStatus := "FAILED", source := .processor } : StatusChange) ::
                 ({ time := s.time, smsId := item.smsId, fromStatus := r.status,
                    toStatus := "PENDING", source := .processor } : StatusChange) :: s.log,
          smsQueue := rest,
          time := s.time + 6000 + DELAY_BETWEEN_MESSAGES } := by
    simp [processCycle, hq, hst]
  have hfind : findRecord (processCycle s true 3) item.smsId =
      some
        { r with status := "FAILED",
                 errorMsg := some "Failed to send to Arduino after retries",
                 updatedAt := s.time + 6000 } := by
    rw [hcycle]
    show List.find? (fun (q : SmsLog) => q.id == item.smsId)
      (updateRecord (updateRecord _ _ _) _ _) = _
    rw [find?_id_updateRecord _ item.smsId item.smsId
          (failFun (s.time + 6000)) (fun q => rfl),
        find?_id_updateRecord _ item.smsId item.smsId
          (pendFun s.time) (fun q => rfl)]
    rw [hr']
    have heq : r.id = item.smsId := by simpa using hone
    simp [heq, pendFun, failFun]
  exact ⟨_, hfind, rfl, rfl, rfl, by rw [hcycle], by rw [hcycle]⟩

/-- C4 counterexample: on the concrete one-row queue the exhausted cycle
stores the broker-exhaustion reason, not relay unavailable, and holds the
inter-send delay (the clock advances 51000 ms, not 6000 ms), so the claim
as stated is false. -/
theorem C4_counterexample : ¬ claimC4Stated := by
  intro h
  exact absurd
    ((h cexTraceC4 { phone := "+15550001", message := "hi", smsId := 0, addedAt := 0 } []
      { id := 0, phoneNumber := "+15550001", message := "hi", status := "QUEUED",
        retryCount := 0, errorMsg := none, sentAt := none, createdAt := 0, updatedAt := 0 }
      (by decide) (by decide)).2)
    (by decide)

/-- C4 witness: the amended behaviour evaluated on the concrete one-row
queue. -/
theorem C4_transport_exhaustion_witness :
    (run cexTraceC4).smsQueue =
      { phone := "+15550001", message := "hi", smsId := 0, addedAt := 0 } :: [] ∧
    findRecord (run cexTraceC4) 0 =
      some { id := 0, phoneNumber := "+15550001", message := "hi", status := "QUEUED",
             retryCount := 0, errorMsg := none, sentAt := none, createdAt := 0, updatedAt := 0 } ∧
    (∃ r', findRecord (processCycle (run cexTraceC4) true 3) 0 = some r' ∧
      r'.status = "FAILED" ∧
      r'.errorMsg = some "Failed to send to Arduino after retries" ∧
      r'.retryCount = 0 ∧
      (processCycle (run cexTraceC4) true 3).smsQueue = [] ∧
      (processCycle (run cexTraceC4) true 3).time =
        (run cexTraceC4).time + 6000 + DELAY_BETWEEN_MESSAGES) :=
  ⟨by decide, by decide, by
    have h := C4_transport_exhaustion (run cexTraceC4)
      { phone := "+15550001", message := "hi", smsId := 0, addedAt := 0 } []
      { id := 0, phoneNumber := "+15550001", message := "hi", status := "QUEUED",
        retryCount := 0, errorMsg := none, sentAt := none, createdAt := 0, updatedAt := 0 }
      (by decide) (by decide)
    rcases h with ⟨r', h1, h2, h3, h4, h5, h6⟩
    exact ⟨r', h1, h2, h3, h4, h5, h6⟩⟩

/-! C8 — receipt time of incoming messages.  The code trusts a parsed
device timestamp of at least 10^12 as an absolute epoch time, so the
stated claim (receipt time always used) is false; the amended claim
characterises the branch. -/

theorem jsReceiveTime_none (now : Nat) (t : String) (hn : parseIntJS t = none) :
    jsReceiveTime now t = (now : Int) := by
  unfold jsReceiveTime
  by_cases he : t = ""
  · simp [he]
  · simp [he, hn]

theorem jsReceiveTime_some (now : Nat) (t : String) (n : Int) (hn : parseIntJS t = some n) :
    jsReceiveTime now t = if n < 1000000000000 then (now : Int) else n := by
  have he : ¬ (t = "") := by
    intro he
    rw [he, show parseIntJS "" = none from rfl] at hn
    cases hn
  unfold jsReceiveTime
  simp [he, hn]

/-- C8 (amended): an incoming event stores the parsed pipe fields, with
receivedAt equal to the correlator's clock whenever the device field is
absent or does not parse or parses below 10^12, and equal to the
device-supplied value once it parses to at least 10^12. -/
theorem C8_receipt_time (s : SysState) (msg : String)
    (h2 : 2 ≤ (splitPipe msg).length) :
    (handleIncomingSmsMessage s msg).inbox =
      { phoneNumber := (splitPipe msg).getD 0 "",
        message := (splitPipe msg).getD 1 "",
        receivedAt := jsReceiveTime s.time ((splitPipe msg).getD 2 "") } :: s.inbox ∧
    (parseIntJS ((splitPipe msg).getD 2 "") = none →
      jsReceiveTime s.time ((splitPipe msg).getD 2 "") = (s.time : Int)) ∧
    (∀ n : Int, parseIntJS ((splitPipe msg).getD 2 "") = some n →
      jsReceiveTime s.time ((splitPipe msg).getD 2 "") =
        if n < 1000000000000 then (s.time : Int) else n) := by
  refine ⟨?_, ?_, ?_⟩
  · simp [handleIncomingSmsMessage, Nat.not_lt.mpr h2]
  · intro hn
    exact jsReceiveTime_none s.time _ hn
  · intro n hn
    exact jsReceiveTime_some s.time _ n hn

/-- C8 witness: the amended behaviour on a concrete small device
timestamp, which yields the correlator's own clock. -/
theorem C8_receipt_time_witness :
    2 ≤ (splitPipe "+15550001|yo|12345").length ∧
    ((handleIncomingSmsMessage init "+15550001|yo|12345").inbox =
      { phoneNumber := (splitPipe "+15550001|yo|12345").getD 0 "",
        message := (splitPipe "+15550001|yo|12345").getD 1 "",
        receivedAt := jsReceiveTime init.time ((splitPipe "+15550001|yo|12345").getD 2 "") } :: init.inbox ∧
    (parseIntJS ((splitPipe "+15550001|yo|12345").getD 2 "") = none →
      jsReceiveTime init.time ((splitPipe "+15550001|yo|12345").getD 2 "") = (init.time : Int)) ∧
    (∀ n : Int, parseIntJS ((splitPipe "+15550001|yo|12345").getD 2 "") = some n →
      jsReceiveTime init.time ((splitPipe "+15550001|yo|12345").getD 2 "") =
        if n < 1000000000000 then (init.time : Int) else n)) :=
  ⟨by decide, C8_receipt_time init "+15550001|yo|12345" (by decide)⟩

/-- C8 counterexample: a device timestamp of 1700000000000 is stored as
receivedAt although the correlator's clock reads 0. -/
theorem C8_counterexample : ¬ claimC8Stated := by
  intro h
  exact absurd
    (h [] "+15550001|yo|1700000000000"
      { phoneNumber := "+15550001", message := "yo", receivedAt := 1700000000000 }
      (by decide))
    (by decide)

/-! C9 — intake validation. -/

/-- C9: with both fields present, a phone number whose stripped form
fails the validation regex is rejected with no state change at all, and a
passing one creates exactly one QUEUED row, appends exactly one queue
entry, and answers at once with the new id and queue position. -/
theorem C9_intake (s : SysState) (phone msg : String) (hp : phone ≠ "") (hm : msg ≠ "") :
    (phoneRegexTest (stripPhone phone) = false →
      sendSMS s phone msg = (s, SendResult.invalidPhone)) ∧
    (phoneRegexTest (stripPhone phone) = true →
      sendSMS s phone msg =
        ({ s with
            records :=
              { id := s.nextId, phoneNumber := phone, message := msg, status := "QUEUED",
                retryCount := 0, errorMsg := none, sentAt := none,
                createdAt := s.time, updatedAt := s.time } :: s.records,
            nextId := s.nextId + 1,
            smsQueue := s.smsQueue ++
              [{ phone := phone, message := msg, smsId := s.nextId, addedAt := s.time }] },
         SendResult.queued s.nextId (s.smsQueue.length + 1))) := by
  constructor
  · intro hreg
    simp [sendSMS, hp, hm, hreg]
  · intro hreg
    simp [sendSMS, newRow, addToSMSQueue, hp, hm, hreg]

/-- C9 witness: the two branches evaluated on concrete inputs. -/
theorem C9_intake_witness :
    ("not-a-number" ≠ "" ∧ phoneRegexTest (stripPhone "not-a-number") = false ∧
      sendSMS init "not-a-number" "hi" = (init, SendResult.invalidPhone)) ∧
    (phoneRegexTest (stripPhone "+15550001") = true ∧
      sendSMS init "+15550001" "hi" =
        ({ init with
            records :=
              [{ id := init.nextId, phoneNumber := "+15550001", message := "hi",
                 status := "QUEUED", retryCount := 0, errorMsg := none, sentAt := none,
                 createdAt := init.time, updatedAt := init.time }],
            nextId := init.nextId + 1,
            smsQueue :=
              [{ phone := "+15550001", message := "hi", smsId := init.nextId,
                 addedAt := init.time }] },
         SendResult.queued init.nextId (init.smsQueue.length + 1))) :=
  ⟨⟨by decide, by decide,
    (C9_intake init "not-a-number" "hi" (by decide) (by decide)).1 (by decide)⟩,
   ⟨by decide,
    (C9_intake init "+15550001" "hi" (by decide) (by decide)).2 (by decide)⟩⟩

/-! C10 — a failed retry publish still charges the budget. -/

/-- C10: retry of an eligible row whose direct broker publish fails
answers the retry-failed error and leaves the row FAILED with the broker
error message and an incremented retryCount, even though the device never
attempted the send. -/
theorem C10_retry_publish_failure (s : SysState) (i : Nat) (r : SmsLog)
    (hr : findRecord s i = some r) (hs : r.status ≠ "SENT") (hc : r.retryCount < MAX_RETRIES) :
    (retrySMS s i false).2 = RetryResult.retryFailed ∧
    findRecord (retrySMS s i false).1 i =
      some
        { r with status := "FAILED", retryCount := r.retryCount + 1,
                 errorMsg := some "Failed to publish to MQTT broker",
                 updatedAt := s.time } := by
  have hr' : List.find? (fun (q : SmsLog) => q.id == i) s.records = some r := hr
  have hone : (r.id == i) = true := by simpa using List.find?_some hr'
  have heq : r.id = i := by simpa using hone
  have hstate : retrySMS s i false =
      ({ s with
          records := updateRecord s.records i (retryFailFun s.time r),
          log := ({ time := s.time, smsId := i, fromStatus := r.status,
                    toStatus := "FAILED", source := .retryEndpoint } : StatusChange) :: s.log },
       RetryResult.retryFailed) := by
    simp [retrySMS, hr, hs, Nat.not_le.mpr hc]
  refine ⟨by rw [hstate], ?_⟩
  rw [hstate]
  show List.find? (fun (q : SmsLog) => q.id == i) (updateRecord _ _ _) = _
  rw [find?_id_updateRecord _ i i (retryFailFun s.time r) (fun q => rfl)]
  rw [hr']
  simp [heq, retryFailFun]

/-- C10 witness: the failed-retry charge evaluated on a concrete queued
row. -/
theorem C10_retry_publish_failure_witness :
    findRecord (run cexTraceC4) 0 =
      some { id := 0, phoneNumber := "+15550001", message := "hi", status := "QUEUED",
             retryCount := 0, errorMsg := none, sentAt := none, createdAt := 0, updatedAt := 0 } ∧
    ((retrySMS (run cexTraceC4) 0 false).2 = RetryResult.retryFailed ∧
      findRecord (retrySMS (run cexTraceC4) 0 false).1 0 =
        some { id := 0, phoneNumber := "+15550001", message := "hi", status := "FAILED",
               retryCount := 1, errorMsg := some "Failed to publish to MQTT broker",
               sentAt := none, createdAt := 0, updatedAt := 0 }) :=
  ⟨by decide,
   C10_retry_publish_failure (run cexTraceC4) 0
    { id := 0, phoneNumber := "+15550001", message := "hi", status := "QUEUED",
      retryCount := 0, errorMsg := none, sentAt := none, createdAt := 0, updatedAt := 0 }
    (by decide) (by decide) (by decide)⟩

/-! Counterexamples for the pacing, retry-limit and status-set claims. -/

/-- C1 counterexample: two rows created and retried one millisecond apart
produce two QUEUED to PENDING transitions far closer than the inter-send
delay, because the retry endpoint publishes directly and bypasses the
queue, its pacing and its in-flight flag. -/
theorem C1_counterexample : ¬ claimC1Stated := by
  intro h
  exact absurd (h.1 cexTraceC1 (by decide)) (by decide)

/-- C3 counterexample: a row retried to the limit and then confirmed SENT
is at the limit, yet retry on it answers the already-sent rejection, not
the retry-limit one. -/
theorem C3_counterexample : ¬ claimC3Stated := by
  intro h
  exact absurd
    (h.2 cexTraceC3 0 true
      { id := 0, phoneNumber := "+15550001", message := "a", status := "SENT",
        retryCount := 3, errorMsg := none, sentAt := some 0, createdAt := 0, updatedAt := 0 }
      (by decide) (by decide))
    (by decide)

/-- C6 counterexample: a device SENDING report is stored verbatim, so a
reachable row carries the status SENDING, outside the four-element set. -/
theorem C6_counterexample : ¬ claimC6Stated := by
  intro h
  exact absurd
    (h cexTraceC6 (by decide)
      { id := 0, phoneNumber := "+15550001", message := "hi", status := "SENDING",
        retryCount := 0, errorMsg := none, sentAt := none, createdAt := 0, updatedAt := 0 }
      (by decide))
    (by decide)

/-! Big-step characterizations of the operations, used by the
reachability inductions. -/

theorem sendSMS_spec (s : SysState) (p m : String) :
    (sendSMS s p m).1 = s ∨
    (sendSMS s p m).1 =
      { s with records := newRow s p m :: s.records, nextId := s.nextId + 1,
               smsQueue := s.smsQueue ++
                 [{ phone := p, message := m, smsId := s.nextId, addedAt := s.time }] } := by
  unfold sendSMS
  split
  · left; rfl
  · split
    · left; rfl
    · right; rfl

theorem retrySMS_spec (s : SysState) (i : Nat) (ok : Bool) :
    (retrySMS s i ok).1 = s ∨
    ∃ r, findRecord s i = some r ∧ r.retryCount < MAX_RETRIES ∧
      ((ok = true ∧ (retrySMS s i ok).1 =
          { s with records := updateRecord s.records i (retryOkFun s.time r),
                   log := ({ time := s.time, smsId := i, fromStatus := r.status,
                             toStatus := "PENDING",
                             source := .retryEndpoint } : StatusChange) :: s.log }) ∨
       (ok = false ∧ (retrySMS s i ok).1 =
          { s with records := updateRecord s.records i (retryFailFun s.time r),
                   log := ({ time := s.time, smsId := i, fromStatus := r.status,
                             toStatus := "FAILED",
                             source := .retryEndpoint } : StatusChange) :: s.log })) := by
  rcases hr : findRecord s i with _ | r
  · left; simp [retrySMS, hr]
  · by_cases hs : r.status = "SENT"
    · left; simp [retrySMS, hr, hs]
    · by_cases hc : MAX_RETRIES ≤ r.retryCount
      · left; simp [retrySMS, hr, hs, hc]
      · right
        refine ⟨r, rfl, by omega, ?_⟩
        cases ok
        · right; exact ⟨rfl, by simp [retrySMS, hr, hs, hc]⟩
        · left; exact ⟨rfl, by simp [retrySMS, hr, hs, hc]⟩

theorem handleStatusMessage_spec (s : SysState) (m : String) :
    handleStatusMessage s m = s ∨
    (2 ≤ (splitPipe m).length ∧
     ∃ r, correlatorFind s.records ((splitPipe m).getD 0 "") = some r ∧
       handleStatusMessage s m =
         { s with
             records := updateRecord s.records r.id
               (correlatorUpdateFun s.time ((splitPipe m).getD 1 "") ((splitPipe m).getD 2 "")),
             log := ({ time := s.time, smsId := r.id, fromStatus := r.status,
                       toStatus := toUpperStr ((splitPipe m).getD 1 ""),
                       source := .correlator } : StatusChange) :: s.log }) := by
  by_cases h2 : (splitPipe m).length < 2
  · left; simp [handleStatusMessage, h2]
  · rcases hf : correlatorFind s.records ((splitPipe m).getD 0 "") with _ | r
    · left
      simp only [handleStatusMessage]
      rw [if_neg h2, hf]
    · right
      refine ⟨by omega, r, rfl, ?_⟩
      simp only [handleStatusMessage]
      rw [if_neg h2, hf]

theorem handleIncomingSmsMessage_records (s : SysState) (m : String) :
    (handleIncomingSmsMessage s m).records = s.records := by
  simp only [handleIncomingSmsMessage]
  split <;> rfl

theorem handleIncomingSmsMessage_frame (s : SysState) (m : String) :
    (handleIncomingSmsMessage s m).smsQueue = s.smsQueue ∧
    (handleIncomingSmsMessage s m).log = s.log ∧
    (handleIncomingSmsMessage s m).time = s.time ∧
    (handleIncomingSmsMessage s m).nextId = s.nextId := by
  simp only [handleIncomingSmsMessage]
  split <;> exact ⟨rfl, rfl, rfl, rfl⟩

theorem processCycle_spec (s : SysState) (c : Bool) (f : Nat) :
    (s.smsQueue = [] ∧ processCycle s c f = s) ∨
    ∃ item rest lg1, s.smsQueue = item :: rest ∧
      ((recStatusOf s item.smsId = none ∧ lg1 = s.log) ∨
       (∃ st, recStatusOf s item.smsId = some st ∧
          lg1 = ({ time := s.time, smsId := item.smsId, fromStatus := st,
                   toStatus := "PENDING", source := .processor } : StatusChange) :: s.log)) ∧
      ((c = false ∧ processCycle s c f =
          { s with records := updateRecord s.records item.smsId (pendFun s.time),
                   log := lg1, smsQueue := item :: rest, time := s.time + 10000 }) ∨
       (c = true ∧ f < 3 ∧ processCycle s c f =
          { s with records := updateRecord s.records item.smsId (pendFun s.time),
                   log := lg1, smsQueue := rest,
                   time := s.time + f * 3000 + DELAY_BETWEEN_MESSAGES }) ∨
       (c = true ∧ 3 ≤ f ∧ ∃ lg2,
          (lg2 = lg1 ∨
           lg2 = ({ time := s.time + 6000, smsId := item.smsId, fromStatus := "PENDING",
                    toStatus := "FAILED", source := .processor } : StatusChange) :: lg1) ∧
          processCycle s c f =
            { s with
                records := updateRecord
                  (updateRecord s.records item.smsId (pendFun s.time))
                  item.smsId (failFun (s.time + 6000)),
                log := lg2, smsQueue := rest,
                time := s.time + 6000 + DELAY_BETWEEN_MESSAGES })) := by
  rcases hq : s.smsQueue with _ | ⟨item, rest⟩
  · left
    exact ⟨rfl, by simp [processCycle, hq]⟩
  · right
    rcases hst : recStatusOf s item.smsId with _ | st
    · refine ⟨item, rest, s.log, rfl, Or.inl ⟨hst, rfl⟩, ?_⟩
      cases c
      · exact Or.inl ⟨rfl, by simp [processCycle, hq, hst]⟩
      · by_cases hf3 : f < 3
        · exact Or.inr (Or.inl ⟨rfl, hf3, by simp [processCycle, hq, hst, hf3]⟩)
        · exact Or.inr (Or.inr ⟨rfl, by omega, s.log,
            Or.inl rfl, by simp [processCycle, hq, hst, hf3]⟩)
    · refine ⟨item, rest, _, rfl, Or.inr ⟨st, hst, rfl⟩, ?_⟩
      cases c
      · exact Or.inl ⟨rfl, by simp [processCycle, hq, hst]⟩
      · by_cases hf3 : f < 3
        · exact Or.inr (Or.inl ⟨rfl, hf3, by simp [processCycle, hq, hst, hf3]⟩)
        · exact Or.inr (Or.inr ⟨rfl, by omega, _,
            Or.inr rfl, by simp [processCycle, hq, hst, hf3]⟩)

/-! Field facts about the row rewrites. -/

theorem correlatorUpdateFun_fields (now : Nat) (st err : String) (q : SmsLog) :
    (correlatorUpdateFun now st err q).id = q.id ∧
    (correlatorUpdateFun now st err q).status = toUpperStr st ∧
    (correlatorUpdateFun now st err q).retryCount = q.retryCount := by
  unfold correlatorUpdateFun
  split
  · exact ⟨rfl, rfl, rfl⟩
  · split
    · exact ⟨rfl, rfl, rfl⟩
    · exact ⟨rfl, rfl, rfl⟩

/-! Reachability inductions. -/

theorem foldl_invariant {P : SysState → Prop} (hstep : ∀ s l, P s → P (step s l)) :
    ∀ (ls : List Label) (s : SysState), P s → P (ls.foldl step s) := by
  intro ls
  induction ls with
  | nil => intro s hs; exact hs
  | cons a as ih => intro s hs; exact ih (step s a) (hstep s a hs)

theorem foldl_invariant_wire {P : SysState → Prop}
    (hstep : ∀ s l, wireOk l = true → P s → P (step s l)) :
    ∀ (ls : List Label) (s : SysState), ls.all wireOk = true → P s → P (ls.foldl step s) := by
  intro ls
  induction ls with
  | nil => intro s _ hs; exact hs
  | cons a as ih =>
    intro s hall hs
    rw [List.all_cons, Bool.and_eq_true] at hall
    exact ih (step s a) hall.2 (hstep s a hall.1 hs)

theorem mem_updateRecord_cases {recs : List SmsLog} {i : Nat} {f : SmsLog → SmsLog} {r : SmsLog}
    (h : r ∈ updateRecord recs i f) : (∃ q ∈ recs, r = f q) ∨ r ∈ recs := by
  rcases mem_updateRecord h with ⟨q, hq, hv⟩
  by_cases hqi : (q.id == i) = true
  · rw [if_pos hqi] at hv
    exact Or.inl ⟨q, hq, hv⟩
  · rw [if_neg hqi] at hv
    exact Or.inr (hv ▸ hq)

theorem retryBoundInv_step (s : SysState) (l : Label) (h : retryBoundInv s) :
    retryBoundInv (step s l) := by
  cases l with
  | send p m =>
    show retryBoundInv (sendSMS s p m).1
    rcases sendSMS_spec s p m with he | he <;> rw [he]
    · exact h
    · intro r hr
      rcases List.mem_cons.mp hr with rfl | hr1
    
      · show (newRow s p m).retryCount ≤ MAX_RETRIES
        simp [newRow, MAX_RETRIES]
      · exact h r hr1
  | retryReq i ok =>
    show retryBoundInv (retrySMS s i ok).1
    rcases retrySMS_spec s i ok with he | ⟨r, hr, hc, hcase⟩
    · rw [he]; exact h
    · rcases hcase with ⟨_, he⟩ | ⟨_, he⟩ <;> rw [he] <;> intro q hq <;>
        rcases mem_updateRecord_cases hq with ⟨w, hw, rfl⟩ | hq1
      · show (retryOkFun s.time r w).retryCount ≤ MAX_RETRIES
        show r.retryCount + 1 ≤ MAX_RETRIES
        omega
      · exact h q hq1
      · show (retryFailFun s.time r w).retryCount ≤ MAX_RETRIES
        show r.retryCount + 1 ≤ MAX_RETRIES
        omega
      · exact h q hq1
  | statusMsg m =>
    show retryBoundInv (handleStatusMessage s m)
    rcases handleStatusMessage_spec s m with he | ⟨h2, r, hf, he⟩
    · rw [he]; exact h
    · rw [he]
      intro q hq
      rcases mem_updateRecord_cases hq with ⟨w, hw, rfl⟩ | hq1
      · rw [(correlatorUpdateFun_fields _ _ _ w).2.2]
        exact h w hw
      · exact h q hq1
  | incomingMsg m =>
    show retryBoundInv (handleIncomingSmsMessage s m)
    intro q hq
    rw [handleIncomingSmsMessage_records] at hq
    exact h q hq
  | cycle c f =>
    show retryBoundInv (processCycle s c f)
    rcases processCycle_spec s c f with ⟨_, he⟩ | ⟨item, rest, lg1, hq, _, hbr⟩
    · rw [he]; exact h
    · have hpend : ∀ q ∈ updateRecord s.records item.smsId (pendFun s.time),
          q.retryCount ≤ MAX_RETRIES := by
        intro q hq1
        rcases mem_updateRecord_cases hq1 with ⟨w, hw, rfl⟩ | hq2
        · show w.retryCount ≤ MAX_RETRIES
          exact h w hw
        · exact h q hq2
      rcases hbr with ⟨_, he⟩ | ⟨_, _, he⟩ | ⟨_, _, lg2, _, he⟩ <;> rw [he] <;> intro q hq1
      · exact hpend q hq1
      · exact hpend q hq1
      · rcases mem_updateRecord_cases hq1 with ⟨w, hw, rfl⟩ | hq2
        · show w.retryCount ≤ MAX_RETRIES
          exact hpend w hw
        · exact hpend q hq2
  | tick d =>
    intro q hq
    exact h q hq

theorem retryBoundInv_init : retryBoundInv init := by
  intro r hr
  cases hr

theorem retryBound_run (ls : List Label) : retryBoundInv (run ls) :=
  foldl_invariant retryBoundInv_step ls init retryBoundInv_init

theorem wireOk_status_mem {m : String} (hw : wireOk (Label.statusMsg m) = true)
    (h2 : 2 ≤ (splitPipe m).length) :
    toUpperStr ((splitPipe m).getD 1 "") = "SENDING" ∨
    toUpperStr ((splitPipe m).getD 1 "") = "SENT" ∨
    toUpperStr ((splitPipe m).getD 1 "") = "FAILED" := by
  simp only [wireOk] at hw
  rw [if_neg (by omega)] at hw
  rw [Bool.or_eq_true, Bool.or_eq_true] at hw
  rcases hw with (h1 | h1) | h1
  · exact Or.inl (eq_of_beq h1)
  · exact Or.inr (Or.inl (eq_of_beq h1))
  · exact Or.inr (Or.inr (eq_of_beq h1))

theorem statusSetInv_step (s : SysState) (l : Label) (hw : wireOk l = true)
    (h : statusSetInv s) : statusSetInv (step s l) := by
  cases l with
  | send p m =>
    show statusSetInv (sendSMS s p m).1
    rcases sendSMS_spec s p m with he | he <;> rw [he]
    · exact h
    · intro r hr
      rcases List.mem_cons.mp hr with rfl | hr1
      · show (newRow s p m).status ∈ _
        simp [newRow]
      · exact h r hr1
  | retryReq i ok =>
    show statusSetInv (retrySMS s i ok).1
    rcases retrySMS_spec s i ok with he | ⟨r, hr, hc, hcase⟩
    · rw [he]; exact h
    · rcases hcase with ⟨_, he⟩ | ⟨_, he⟩ <;> rw [he] <;> intro q hq <;>
        rcases mem_updateRecord_cases hq with ⟨w, hw1, rfl⟩ | hq1
      · show (retryOkFun s.time r w).status ∈ _
        simp [retryOkFun]
      · exact h q hq1
      · show (retryFailFun s.time r w).status ∈ _
        simp [retryFailFun]
      · exact h q hq1
  | statusMsg m =>
    show statusSetInv (handleStatusMessage s m)
    rcases handleStatusMessage_spec s m with he | ⟨h2, r, hf, he⟩
    · rw [he]; exact h
    · rw [he]
      intro q hq
      rcases mem_updateRecord_cases hq with ⟨w, hw1, rfl⟩ | hq1
      · rw [(correlatorUpdateFun_fields _ _ _ w).2.1]
        rcases wireOk_status_mem hw h2 with h3 | h3 | h3 <;> rw [h3] <;> simp
      · exact h q hq1
  | incomingMsg m =>
    show statusSetInv (handleIncomingSmsMessage s m)
    intro q hq
    rw [handleIncomingSmsMessage_records] at hq
    exact h q hq
  | cycle c f =>
    show statusSetInv (processCycle s c f)
    rcases processCycle_spec s c f with ⟨_, he⟩ | ⟨item, rest, lg1, hq, _, hbr⟩
    · rw [he]; exact h
    · have hpend : ∀ q ∈ updateRecord s.records item.smsId (pendFun s.time),
          q.status ∈ (["QUEUED", "PENDING", "SENT", "FAILED", "SENDING"] : List String) := by
        intro q hq1
        rcases mem_updateRecord_cases hq1 with ⟨w, hw1, rfl⟩ | hq2
        · show (pendFun s.time w).status ∈ _
          simp [pendFun]
        · exact h q hq2
      rcases hbr with ⟨_, he⟩ | ⟨_, _, he⟩ | ⟨_, _, lg2, _, he⟩ <;> rw [he] <;> intro q hq1
      · exact hpend q hq1
      · exact hpend q hq1
      · rcases mem_updateRecord_cases hq1 with ⟨w, hw1, rfl⟩ | hq2
        · show (failFun (s.time + 6000) w).status ∈ _
          simp [failFun]
        · exact hpend q hq2
  | tick d =>
    intro q hq
    exact h q hq

theorem statusSetInv_init : statusSetInv init := by
  intro r hr
  cases hr

theorem statusSet_run (ls : List Label) (hw : TraceOK ls) : statusSetInv (run ls) :=
  foldl_invariant_wire statusSetInv_step ls init hw statusSetInv_init

/-! C3 — the retry budget. -/

/-- C3 (amended): every reachable row satisfies retryCount at most 3,
and retry on a row at the limit leaves the state unchanged and is
rejected — with the retry-limit error whenever the row is not already
SENT, and with the already-sent error when it is (the SENT guard runs
first in the route). -/
theorem C3_retry_budget :
    (∀ ls : List Label, ∀ r ∈ (run ls).records, r.retryCount ≤ MAX_RETRIES) ∧
    (∀ (s : SysState) (i : Nat) (ok : Bool) (r : SmsLog),
      findRecord s i = some r → MAX_RETRIES ≤ r.retryCount →
      (retrySMS s i ok).1 = s ∧
      ((retrySMS s i ok).2 = RetryResult.retryLimit ∨
       (retrySMS s i ok).2 = RetryResult.alreadySent) ∧
      (r.status ≠ "SENT" → (retrySMS s i ok).2 = RetryResult.retryLimit)) := by
  constructor
  · intro ls
    exact retryBound_run ls
  · intro s i ok r hr hc
    by_cases hs : r.status = "SENT"
    · exact ⟨by simp [retrySMS, hr, hs], Or.inr (by simp [retrySMS, hr, hs]),
        fun hn => absurd hs hn⟩
    · exact ⟨by simp [retrySMS, hr, hs, hc], Or.inl (by simp [retrySMS, hr, hs, hc]),
        fun _ => by simp [retrySMS, hr, hs, hc]⟩

/-- C3 witness: the amended behaviour on a concrete row driven to the
limit by three failed retries. -/
theorem C3_retry_budget_witness :
    findRecord (run limitTrace) 0 =
      some { id := 0, phoneNumber := "+15550001", message := "a", status := "FAILED",
             retryCount := 3, errorMsg := some "Failed to publish to MQTT broker",
             sentAt := none, createdAt := 0, updatedAt := 0 } ∧
    MAX_RETRIES ≤ 3 ∧
    ((retrySMS (run limitTrace) 0 true).1 = run limitTrace ∧
     ((retrySMS (run limitTrace) 0 true).2 = RetryResult.retryLimit ∨
      (retrySMS (run limitTrace) 0 true).2 = RetryResult.alreadySent) ∧
     (({ id := 0, phoneNumber := "+15550001", message := "a", status := "FAILED",
         retryCount := 3, errorMsg := some "Failed to publish to MQTT broker",
         sentAt := none, createdAt := 0, updatedAt := 0 } : SmsLog).status ≠ "SENT" →
      (retrySMS (run limitTrace) 0 true).2 = RetryResult.retryLimit)) :=
  ⟨by decide, by decide,
   C3_retry_budget.2 (run limitTrace) 0 true
    { id := 0, phoneNumber := "+15550001", message := "a", status := "FAILED",
      retryCount := 3, errorMsg := some "Failed to publish to MQTT broker",
      sentAt := none, createdAt := 0, updatedAt := 0 }
    (by decide) (by decide)⟩

/-! C6 — the reachable status set. -/

/-- C6 (amended): on any wire-respecting execution every reachable row
status lies in the five-element set QUEUED, PENDING, SENT, FAILED,
SENDING — the device SENDING report is stored verbatim and is the one
value outside the four-element set of the claim. -/
theorem C6_reachable_statuses (ls : List Label) (hw : TraceOK ls) :
    ∀ r ∈ (run ls).records,
      r.status ∈ (["QUEUED", "PENDING", "SENT", "FAILED", "SENDING"] : List String) :=
  statusSet_run ls hw

/-- C6 witness: the five-element bound evaluated on the concrete trace
whose row ends in status SENDING. -/
theorem C6_reachable_statuses_witness :
    TraceOK cexTraceC6 ∧
    ∀ r ∈ (run cexTraceC6).records,
      r.status ∈ (["QUEUED", "PENDING", "SENT", "FAILED", "SENDING"] : List String) :=
  ⟨by decide, C6_reachable_statuses cexTraceC6 (by decide)⟩

/-! Fresh-id induction. -/

theorem ids_lt_updateRecord {recs : List SmsLog} {i : Nat} {f : SmsLog → SmsLog}
    (hf : ∀ r, (f r).id = r.id) (n : Nat) (h : ∀ r ∈ recs, r.id < n) :
    ∀ r ∈ updateRecord recs i f, r.id < n := by
  intro r hr
  rcases mem_updateRecord_cases hr with ⟨q, hq, rfl⟩ | h1
  · rw [hf q]
    exact h q hq
  · exact h r h1

theorem idsOK_step (s : SysState) (l : Label) (h : idsOK s) : idsOK (step s l) := by
  obtain ⟨h1, h2, h3⟩ := h
  cases l with
  | send p m =>
    show idsOK (sendSMS s p m).1
    rcases sendSMS_spec s p m with he | he <;> rw [he]
    · exact ⟨h1, h2, h3⟩
    · refine ⟨?_, ?_, ?_⟩
      · intro r hr
        show r.id < s.nextId + 1
        rcases List.mem_cons.mp hr with rfl | hr1
        · show s.nextId < s.nextId + 1
          omega
        · have := h1 r hr1
          omega
      · intro it hit
        show it.smsId < s.nextId + 1
        rcases List.mem_append.mp hit with hit1 | hit1
        · have := h2 it hit1
          omega
        · rcases List.mem_singleton.mp hit1 with rfl
          show s.nextId < s.nextId + 1
          omega
      · exact List.Pairwise.cons (fun b hb => h1 b hb) h3
  | retryReq i ok =>
    show idsOK (retrySMS s i ok).1
    rcases retrySMS_spec s i ok with he | ⟨r, hr, hc, hcase⟩
    · rw [he]; exact ⟨h1, h2, h3⟩
    · rcases hcase with ⟨_, he⟩ | ⟨_, he⟩ <;> rw [he]
      · exact ⟨ids_lt_updateRecord (f := retryOkFun s.time r) (fun q => rfl) s.nextId h1, h2,
          pairwise_ids_updateRecord (f := retryOkFun s.time r) (fun q => rfl) h3⟩
      · exact ⟨ids_lt_updateRecord (f := retryFailFun s.time r) (fun q => rfl) s.nextId h1, h2,
          pairwise_ids_updateRecord (f := retryFailFun s.time r) (fun q => rfl) h3⟩
  | statusMsg m =>
    show idsOK (handleStatusMessage s m)
    rcases handleStatusMessage_spec s m with he | ⟨hl2, r, hf, he⟩
    · rw [he]; exact ⟨h1, h2, h3⟩
    · rw [he]
      exact ⟨ids_lt_updateRecord (fun q => (correlatorUpdateFun_fields _ _ _ q).1) s.nextId h1,
        h2, pairwise_ids_updateRecord (fun q => (correlatorUpdateFun_fields _ _ _ q).1) h3⟩
  | incomingMsg m =>
    show idsOK (handleIncomingSmsMessage s m)
    obtain ⟨hq, _, _, hn⟩ := handleIncomingSmsMessage_frame s m
    rw [idsOK, handleIncomingSmsMessage_records, hq, hn]
    exact ⟨h1, h2, h3⟩
  | cycle c f =>
    show idsOK (processCycle s c f)
    rcases processCycle_spec s c f with ⟨_, he⟩ | ⟨item, rest, lg1, hq, _, hbr⟩
    · rw [he]; exact ⟨h1, h2, h3⟩
    · have hrest : ∀ it ∈ rest, it.smsId < s.nextId := by
        intro it hit
        exact h2 it (by rw [hq]; exact List.mem_cons_of_mem item hit)
      have hall : ∀ it ∈ item :: rest, it.smsId < s.nextId := by
        rw [← hq]; exact h2
      have hp1 : ∀ r ∈ updateRecord s.records item.smsId (pendFun s.time), r.id < s.nextId :=
        ids_lt_updateRecord (f := pendFun s.time) (fun q => rfl) s.nextId h1
      have hp3 := pairwise_ids_updateRecord (f := pendFun s.time) (i := item.smsId)
        (fun q => rfl) h3
      rcases hbr with ⟨_, he⟩ | ⟨_, _, he⟩ | ⟨_, _, lg2, _, he⟩ <;> rw [he]
      · exact ⟨hp1, hall, hp3⟩
      · exact ⟨hp1, hrest, hp3⟩
      · exact ⟨ids_lt_updateRecord (f := failFun (s.time + 6000)) (fun q => rfl) s.nextId hp1,
          hrest, pairwise_ids_updateRecord (f := failFun (s.time + 6000)) (fun q => rfl) hp3⟩
  | tick d =>
    exact ⟨h1, h2, h3⟩

theorem idsOK_init : idsOK init :=
  ⟨fun r hr => absurd hr (List.not_mem_nil r), fun it hit => absurd hit (List.not_mem_nil it),
   List.Pairwise.nil⟩

theorem idsOK_run (ls : List Label) : idsOK (run ls) :=
  foldl_invariant idsOK_step ls init idsOK_init

/-! C2 — a SENT row is frozen against late status events. -/

/-- C2: in any reachable state, a row whose status is SENT is left
byte-for-byte unchanged, at its position, by any later inbound status
event — in particular by a late FAILED event for the same destination —
because the correlator query only matches PENDING, RETRY or QUEUED rows. -/
theorem C2_sent_frozen (ls : List Label) (msg : String) (k : Nat) (r : SmsLog)
    (hr : (run ls).records.get? k = some r) (hs : r.status = "SENT") :
    (handleStatusMessage (run ls) msg).records.get? k = some r := by
  rcases handleStatusMessage_spec (run ls) msg with he | ⟨h2, m, hf, he⟩
  · rw [he, hr]
  · rw [he]
    show (updateRecord (run ls).records m.id _).get? k = some r
    unfold updateRecord
    rw [List.get?_map, hr]
    have hmem_r : r ∈ (run ls).records := List.get?_mem hr
    have hmem_m : m ∈ (run ls).records := List.mem_of_find?_eq_some hf
    have hpm := List.find?_some hf
    have hm_status :
        (m.status == "PENDING" || m.status == "RETRY" || m.status == "QUEUED") = true := by
      have := (Bool.and_eq_true _ _).mp hpm
      exact this.2
    have hne : m ≠ r := by
      intro heq
      rw [heq, hs] at hm_status
      exact absurd hm_status (by decide)
    have hidne : ¬ ((r.id == m.id) = true) := by
      intro hb
      have hbid : r.id = m.id := by simpa using hb
      exact hne (pairwise_id_inj (idsOK_run ls).2.2 hmem_m hmem_r hbid.symm)
    simp only [Option.map_some']
    rw [if_neg hidne]

/-- C2 witness: the round-trip row, already SENT, survives a late FAILED
event for its destination unchanged. -/
theorem C2_sent_frozen_witness :
    (run okTrace).records.get? 0 =
      some { id := 0, phoneNumber := "+15550001", message := "hello", status := "SENT",
             retryCount := 0, errorMsg := none, sentAt := some 45000,
             createdAt := 0, updatedAt := 45000 } ∧
    (handleStatusMessage (run okTrace) "+15550001|FAILED|oops").records.get? 0 =
      some { id := 0, phoneNumber := "+15550001", message := "hello", status := "SENT",
             retryCount := 0, errorMsg := none, sentAt := some 45000,
             createdAt := 0, updatedAt := 45000 } :=
  ⟨by decide,
   C2_sent_frozen okTrace "+15550001|FAILED|oops" 0
    { id := 0, phoneNumber := "+15550001", message := "hello", status := "SENT",
      retryCount := 0, errorMsg := none, sentAt := some 45000,
      createdAt := 0, updatedAt := 45000 }
    (by decide) (by decide)⟩

/-! C5 — correlation targets exactly the most recent unconfirmed row. -/

theorem find?_congr {α : Type} (p q : α → Bool) :
    ∀ (l : List α), (∀ x ∈ l, p x = q x) → l.find? p = l.find? q := by
  intro l
  induction l with
  | nil => intro _; rfl
  | cons a as ih =>
    intro h
    have ha := h a (List.mem_cons_self a as)
    by_cases hpa : p a = true
    · rw [List.find?_cons_of_pos _ hpa, List.find?_cons_of_pos _ (ha ▸ hpa)]
    · rw [List.find?_cons_of_neg _ (by simpa using hpa),
          List.find?_cons_of_neg _ (by rw [← ha]; simpa using hpa)]
      exact ih (fun x hx => h x (List.mem_cons_of_mem a hx))

theorem find?_le_max_id {recs : List SmsLog}
    (hs : List.Pairwise (fun a b : SmsLog => b.id < a.id) recs)
    {p : SmsLog → Bool} {m : SmsLog} (hm : recs.find? p = some m) :
    ∀ r ∈ recs, p r = true → r.id ≤ m.id := by
  induction recs with
  | nil => intro r hr; cases hr
  | cons a as ih =>
    rcases List.pairwise_cons.mp hs with ⟨ha, has⟩
    by_cases hpa : p a = true
    · rw [List.find?_cons_of_pos _ hpa] at hm
      injection hm with hm1
      subst hm1
      intro r hr _
      rcases List.mem_cons.mp hr with rfl | hr1
      · exact le_refl _
      · exact le_of_lt (ha r hr1)
    · rw [List.find?_cons_of_neg _ (by simpa using hpa)] at hm
      intro r hr hpr
      rcases List.mem_cons.mp hr with rfl | hr1
      · exact absurd hpr hpa
      · exact ih has hm r hr1 hpr

theorem correlatorFind_eq_spec {recs : List SmsLog}
    (h5 : ∀ r ∈ recs,
      r.status ∈ (["QUEUED", "PENDING", "SENT", "FAILED", "SENDING"] : List String))
    (phone : String) :
    correlatorFind recs phone = specFindTarget recs phone := by
  unfold correlatorFind specFindTarget
  apply find?_congr
  intro x hx
  have hmem := h5 x hx
  have hne : x.status ≠ "RETRY" := by
    intro hcon
    rw [hcon] at hmem
    exact absurd hmem (by decide)
  have hret : (x.status == "RETRY") = false := by
    simpa using hne
  show (x.phoneNumber == phone &&
          (x.status == "PENDING" || x.status == "RETRY" || x.status == "QUEUED")) =
       (x.phoneNumber == phone && (x.status == "PENDING" || x.status == "QUEUED"))
  rw [hret, Bool.or_false]

/-- C5: on any wire-respecting execution, a status event for a
destination with no PENDING or QUEUED row for it changes nothing at all;
and when such rows exist the event rewrites exactly the most recently
created of them (every other matching row was created earlier, and every
row with another id survives untouched), with queue and inbox unchanged.
On reachable states the code's PENDING, RETRY, QUEUED filter coincides
with the spec's PENDING-or-QUEUED one, RETRY being unreachable. -/
theorem C5_correlation (ls : List Label) (hw : TraceOK ls) (msg : String)
    (h2 : 2 ≤ (splitPipe msg).length) :
    (specFindTarget (run ls).records ((splitPipe msg).getD 0 "") = none →
      handleStatusMessage (run ls) msg = run ls) ∧
    (∀ m, specFindTarget (run ls).records ((splitPipe msg).getD 0 "") = some m →
      (m.phoneNumber = (splitPipe msg).getD 0 "" ∧
        (m.status = "PENDING" ∨ m.status = "QUEUED")) ∧
      (∀ r ∈ (run ls).records,
        r.phoneNumber = (splitPipe msg).getD 0 "" →
        (r.status = "PENDING" ∨ r.status = "QUEUED") → r.id ≤ m.id) ∧
      (handleStatusMessage (run ls) msg).records =
        updateRecord (run ls).records m.id
          (correlatorUpdateFun (run ls).time
            ((splitPipe msg).getD 1 "") ((splitPipe msg).getD 2 "")) ∧
      (handleStatusMessage (run ls) msg).smsQueue = (run ls).smsQueue ∧
      (handleStatusMessage (run ls) msg).inbox = (run ls).inbox ∧
      (∀ r ∈ (run ls).records, r.id ≠ m.id →
        r ∈ (handleStatusMessage (run ls) msg).records)) := by
  have h5 := statusSet_run ls hw
  have hfc : correlatorFind (run ls).records ((splitPipe msg).getD 0 "") =
      specFindTarget (run ls).records ((splitPipe msg).getD 0 "") :=
    correlatorFind_eq_spec h5 _
  constructor
  · intro hnone
    simp only [handleStatusMessage]
    rw [if_neg (not_lt.mpr h2), hfc, hnone]
  · intro m hm
    have hsome : correlatorFind (run ls).records ((splitPipe msg).getD 0 "") = some m :=
      hfc.trans hm
    have hred : handleStatusMessage (run ls) msg =
        { run ls with
            records := updateRecord (run ls).records m.id
              (correlatorUpdateFun (run ls).time
                ((splitPipe msg).getD 1 "") ((splitPipe msg).getD 2 "")),
            log := ({ time := (run ls).time, smsId := m.id, fromStatus := m.status,
                      toStatus := toUpperStr ((splitPipe msg).getD 1 ""),
                      source := .correlator } : StatusChange) :: (run ls).log } := by
      simp only [handleStatusMessage]
      rw [if_neg (not_lt.mpr h2), hsome]
    have hmx : List.find?
        (fun r : SmsLog => r.phoneNumber == (splitPipe msg).getD 0 "" &&
          (r.status == "PENDING" || r.status == "QUEUED")) (run ls).records = some m := hm
    have hpm := List.find?_some hmx
    obtain ⟨hma, hmb⟩ := (Bool.and_eq_true _ _).mp hpm
    refine ⟨⟨eq_of_beq hma, ?_⟩, ?_, by rw [hred], by rw [hred], by rw [hred], ?_⟩
    · rcases (Bool.or_eq_true _ _).mp hmb with hmc | hmc
      · exact Or.inl (eq_of_beq hmc)
      · exact Or.inr (eq_of_beq hmc)
    · intro r hrmem hphone hstat
      refine find?_le_max_id (idsOK_run ls).2.2 hm r hrmem ?_
      show (r.phoneNumber == (splitPipe msg).getD 0 "" &&
        (r.status == "PENDING" || r.status == "QUEUED")) = true
      rcases hstat with h | h <;> simp [hphone, h]
    · intro r hrmem hne
      rw [hred]
      show r ∈ updateRecord (run ls).records m.id _
      unfold updateRecord
      refine List.mem_map.mpr ⟨r, hrmem, ?_⟩
      rw [if_neg (fun hb => hne (by simpa using hb))]

/-- C5 witness: on the round-trip trace whose sole row is already SENT, a
status event for its destination is a correlation miss and changes
nothing; the hit branch is exercised through the most-recent-row bound
instantiated on a fresh QUEUED row. -/
theorem C5_correlation_witness :
    TraceOK cexTraceC4 ∧ 2 ≤ (splitPipe "+15550001|SENT|").length ∧
    ((specFindTarget (run cexTraceC4).records
        ((splitPipe "+15550001|SENT|").getD 0 "") = none →
      handleStatusMessage (run cexTraceC4) "+15550001|SENT|" = run cexTraceC4) ∧
     (∀ m, specFindTarget (run cexTraceC4).records
        ((splitPipe "+15550001|SENT|").getD 0 "") = some m →
      (m.phoneNumber = (splitPipe "+15550001|SENT|").getD 0 "" ∧
        (m.status = "PENDING" ∨ m.status = "QUEUED")) ∧
      (∀ r ∈ (run cexTraceC4).records,
        r.phoneNumber = (splitPipe "+15550001|SENT|").getD 0 "" →
        (r.status = "PENDING" ∨ r.status = "QUEUED") → r.id ≤ m.id) ∧
      (handleStatusMessage (run cexTraceC4) "+15550001|SENT|").records =
        updateRecord (run cexTraceC4).records m.id
          (correlatorUpdateFun (run cexTraceC4).time
            ((splitPipe "+15550001|SENT|").getD 1 "")
            ((splitPipe "+15550001|SENT|").getD 2 "")) ∧
      (handleStatusMessage (run cexTraceC4) "+15550001|SENT|").smsQueue =
        (run cexTraceC4).smsQueue ∧
      (handleStatusMessage (run cexTraceC4) "+15550001|SENT|").inbox =
        (run cexTraceC4).inbox ∧
      (∀ r ∈ (run cexTraceC4).records, r.id ≠ m.id →
        r ∈ (handleStatusMessage (run cexTraceC4) "+15550001|SENT|").records))) :=
  ⟨by decide, by decide, C5_correlation cexTraceC4 (by decide) "+15550001|SENT|" (by decide)⟩

/-! C1 — the pacing invariant. -/

theorem procTimesL_cons (e : StatusChange) (L : List StatusChange) :
    procTimesL (e :: L) =
      if isProcQP e = true then e.time :: procTimesL L else procTimesL L := by
  simp only [procTimesL, List.filter_cons]
  split <;> simp

theorem procTimes_le_time {s : SysState} (hlog : logTimesOK s) :
    ∀ t ∈ procTimes s, t ≤ s.time := by
  intro t ht
  rcases List.mem_map.mp ht with ⟨e, hef, rfl⟩
  exact hlog e (List.mem_of_mem_filter hef)

theorem paced_head_bound {t : Nat} {ts : List Nat} {T : Nat} (hp : paced (t :: ts))
    (hT : t + DELAY_BETWEEN_MESSAGES ≤ T) : ∀ b ∈ t :: ts, b + DELAY_BETWEEN_MESSAGES ≤ T := by
  intro b hb
  rcases List.mem_cons.mp hb with rfl | hb1
  · exact hT
  · have := (List.pairwise_cons.mp hp).1 b hb1
    omega

theorem map_status_update_ne (o : Option SmsLog) (i : Nat) (f : SmsLog → SmsLog)
    (hfs : ∀ r, (f r).status ≠ "QUEUED")
    (hold : o.map (fun r => r.status) ≠ some "QUEUED") :
    ((o.map (fun r => if r.id == i then f r else r)).map (fun r => r.status)) ≠
      some "QUEUED" := by
  rcases o with _ | q
  · simp
  · simp only [Option.map_some'] at hold ⊢
    intro hcon
    injection hcon with hcon
    by_cases hqi : (q.id == i) = true
    · rw [if_pos hqi] at hcon
      exact hfs q hcon
    · rw [if_neg hqi] at hcon
      exact hold (by rw [hcon])

theorem recStatus_update_ne {recs : List SmsLog} {i : Nat} {f : SmsLog → SmsLog}
    (hf : ∀ r, (f r).id = r.id) (hfs : ∀ r, (f r).status ≠ "QUEUED") (j : Nat)
    (hold : (recs.find? (fun r => r.id == j)).map (fun r => r.status) ≠ some "QUEUED") :
    ((updateRecord recs i f).find? (fun r => r.id == j)).map (fun r => r.status) ≠
      some "QUEUED" := by
  rw [find?_id_updateRecord recs i j f hf]
  exact map_status_update_ne _ i f hfs hold

theorem recStatus_update_self {recs : List SmsLog} {j : Nat} {f : SmsLog → SmsLog}
    (hf : ∀ r, (f r).id = r.id) {r : SmsLog}
    (hfind : recs.find? (fun q => q.id == j) = some r) :
    ((updateRecord recs j f).find? (fun q => q.id == j)).map (fun q => q.status) =
      some ((f r).status) := by
  rw [find?_id_updateRecord recs j j f hf, hfind]
  have hone : (r.id == j) = true :=
    List.find?_some (p := fun (q : SmsLog) => q.id == j) hfind
  have heq : r.id = j := by simpa using hone
  simp [heq]

theorem recStatusOf_none_find {s : SysState} {j : Nat} (h : recStatusOf s j = none) :
    s.records.find? (fun r => r.id == j) = none := by
  unfold recStatusOf findRecord at h
  exact Option.map_eq_none'.mp h

theorem map_status_some (o : Option SmsLog) (st : String)
    (h : o.map (fun r => r.status) = some st) : ∃ r, o = some r ∧ r.status = st := by
  rcases o with _ | r
  · cases h
  · simp only [Option.map_some'] at h
    injection h with h
    exact ⟨r, rfl, h⟩

theorem recStatusOf_some_find {s : SysState} {j : Nat} {st : String}
    (h : recStatusOf s j = some st) :
    ∃ r, s.records.find? (fun r => r.id == j) = some r ∧ r.status = st := by
  unfold recStatusOf findRecord at h
  exact map_status_some _ _ h

theorem isProcQP_retry (t i : Nat) (a b : String) :
    isProcQP { time := t, smsId := i, fromStatus := a, toStatus := b,
               source := .retryEndpoint } = false := rfl

theorem isProcQP_correlator (t i : Nat) (a b : String) :
    isProcQP { time := t, smsId := i, fromStatus := a, toStatus := b,
               source := .correlator } = false := rfl

theorem isProcQP_fail (t i : Nat) (a : String) :
    isProcQP { time := t, smsId := i, fromStatus := a, toStatus := "FAILED",
               source := .processor } = false := by
  simp [isProcQP, isQP]

theorem isProcQP_pend (t i : Nat) (a : String) :
    isProcQP { time := t, smsId := i, fromStatus := a, toStatus := "PENDING",
               source := .processor } = (a == "QUEUED") := by
  simp [isProcQP, isQP]

theorem pacInv_send (s : SysState) (p m : String) (h : PacInv s) :
    PacInv (sendSMS s p m).1 := by
  obtain ⟨hids, hlog, hpaced, hrecent⟩ := h
  rcases sendSMS_spec s p m with he | he
  · rw [he]
    exact ⟨hids, hlog, hpaced, hrecent⟩
  · have hids2 := idsOK_step s (Label.send p m) hids
    simp only [step] at hids2
    rw [he] at hids2
    rw [he]
    refine ⟨hids2, ?_, ?_, ?_⟩
    · intro e hee
      exact hlog e hee
    · exact hpaced
    · intro t ts hts
      rcases hrecent t ts hts with h1 | ⟨it, rest, hq, hst⟩
      · exact Or.inl h1
      · right
        refine ⟨it,
          rest ++ [{ phone := p, message := m, smsId := s.nextId, addedAt := s.time }],
          ?_, ?_⟩
        · show s.smsQueue ++ [_] = _
          rw [hq]
          rfl
        · show ((newRow s p m :: s.records).find? (fun r => r.id == it.smsId)).map
            (fun r => r.status) ≠ some "QUEUED"
          have hlt : it.smsId < s.nextId :=
            hids.2.1 it (by rw [hq]; exact List.mem_cons_self it rest)
          have hne : ¬ (((fun (r : SmsLog) => r.id == it.smsId) (newRow s p m)) = true) := by
            show ¬ ((s.nextId == it.smsId) = true)
            simp
            omega
          rw [List.find?_cons_of_neg (p := fun (r : SmsLog) => r.id == it.smsId) _
            (by simpa using hne)]
          exact hst

theorem pacInv_retry (s : SysState) (i : Nat) (ok : Bool) (h : PacInv s) :
    PacInv (retrySMS s i ok).1 := by
  obtain ⟨hids, hlog, hpaced, hrecent⟩ := h
  rcases retrySMS_spec s i ok with he | ⟨r, hr, hc, hcase⟩
  · rw [he]
    exact ⟨hids, hlog, hpaced, hrecent⟩
  · have hids2 := idsOK_step s (Label.retryReq i ok) hids
    simp only [step] at hids2
    rcases hcase with ⟨hok, he⟩ | ⟨hok, he⟩ <;> rw [he] at hids2 <;> rw [he] <;>
      refine ⟨hids2, ?_, ?_, ?_⟩
    · intro e hee
      rcases List.mem_cons.mp hee with rfl | h1
      · show s.time ≤ s.time
        exact le_refl _
      · exact hlog e h1
    · show paced (procTimesL (_ :: s.log))
      rw [procTimesL_cons, isProcQP_retry]
      exact hpaced
    · intro t ts hts
      have hts2 : procTimes s = t :: ts := by
        have : procTimesL (_ :: s.log) = t :: ts := hts
        rwa [procTimesL_cons, isProcQP_retry] at this
      rcases hrecent t ts hts2 with h1 | ⟨it, rest, hq, hst⟩
      · exact Or.inl h1
      · right
        refine ⟨it, rest, hq, ?_⟩
        show ((updateRecord s.records i (retryOkFun s.time r)).find?
          (fun q => q.id == it.smsId)).map (fun q => q.status) ≠ some "QUEUED"
        exact recStatus_update_ne (f := retryOkFun s.time r) (fun q => rfl)
          (fun q => by simp [retryOkFun]) _ hst
    · intro e hee
      rcases List.mem_cons.mp hee with rfl | h1
      · show s.time ≤ s.time
        exact le_refl _
      · exact hlog e h1
    · show paced (procTimesL (_ :: s.log))
      rw [procTimesL_cons, isProcQP_retry]
      exact hpaced
    · intro t ts hts
      have hts2 : procTimes s = t :: ts := by
        have : procTimesL (_ :: s.log) = t :: ts := hts
        rwa [procTimesL_cons, isProcQP_retry] at this
      rcases hrecent t ts hts2 with h1 | ⟨it, rest, hq, hst⟩
      · exact Or.inl h1
      · right
        refine ⟨it, rest, hq, ?_⟩
        show ((updateRecord s.records i (retryFailFun s.time r)).find?
          (fun q => q.id == it.smsId)).map (fun q => q.status) ≠ some "QUEUED"
        exact recStatus_update_ne (f := retryFailFun s.time r) (fun q => rfl)
          (fun q => by simp [retryFailFun]) _ hst

theorem pacInv_status (s : SysState) (m : String) (hw : wireOk (Label.statusMsg m) = true)
    (h : PacInv s) : PacInv (handleStatusMessage s m) := by
  obtain ⟨hids, hlog, hpaced, hrecent⟩ := h
  rcases handleStatusMessage_spec s m with he | ⟨h2, r, hf, he⟩
  · rw [he]
    exact ⟨hids, hlog, hpaced, hrecent⟩
  · have hids2 := idsOK_step s (Label.statusMsg m) hids
    simp only [step] at hids2
    rw [he] at hids2
    rw [he]
    have hup : toUpperStr ((splitPipe m).getD 1 "") ≠ "QUEUED" := by
      rcases wireOk_status_mem hw h2 with h3 | h3 | h3 <;> rw [h3] <;> decide
    refine ⟨hids2, ?_, ?_, ?_⟩
    · intro e hee
      rcases List.mem_cons.mp hee with rfl | h1
      · show s.time ≤ s.time
        exact le_refl _
      · exact hlog e h1
    · show paced (procTimesL (_ :: s.log))
      rw [procTimesL_cons, isProcQP_correlator]
      exact hpaced
    · intro t ts hts
      have hts2 : procTimes s = t :: ts := by
        have : procTimesL (_ :: s.log) = t :: ts := hts
        rwa [procTimesL_cons, isProcQP_correlator] at this
      rcases hrecent t ts hts2 with h1 | ⟨it, rest, hq, hst⟩
      · exact Or.inl h1
      · right
        refine ⟨it, rest, hq, ?_⟩
        show ((updateRecord s.records r.id
          (correlatorUpdateFun s.time ((splitPipe m).getD 1 "") ((splitPipe m).getD 2 ""))).find?
          (fun q => q.id == it.smsId)).map (fun q => q.status) ≠ some "QUEUED"
        refine recStatus_update_ne (fun q => (correlatorUpdateFun_fields _ _ _ q).1)
          (fun q => ?_) _ hst
        rw [(correlatorUpdateFun_fields _ _ _ q).2.1]
        exact hup

theorem pacInv_incoming (s : SysState) (m : String) (h : PacInv s) :
    PacInv (handleIncomingSmsMessage s m) := by
  obtain ⟨hids, hlog, hpaced, hrecent⟩ := h
  have hids2 := idsOK_step s (Label.incomingMsg m) hids
  simp only [step] at hids2
  obtain ⟨hq, hl, ht, _⟩ := handleIncomingSmsMessage_frame s m
  have hrec := handleIncomingSmsMessage_records s m
  refine ⟨hids2, ?_, ?_, ?_⟩
  · intro e hee
    rw [hl] at hee
    rw [ht]
    exact hlog e hee
  · show paced (procTimesL (handleIncomingSmsMessage s m).log)
    rw [hl]
    exact hpaced
  · intro t ts hts
    have hts2 : procTimes s = t :: ts := by
      have : procTimesL (handleIncomingSmsMessage s m).log = t :: ts := hts
      rwa [hl] at this
    rcases hrecent t ts hts2 with h1 | ⟨it, rest, hq2, hst⟩
    · rw [ht]
      exact Or.inl h1
    · right
      refine ⟨it, rest, by rw [hq, hq2], ?_⟩
      show ((handleIncomingSmsMessage s m).records.find? (fun q => q.id == it.smsId)).map
        (fun q => q.status) ≠ some "QUEUED"
      rw [hrec]
      exact hst

theorem pacInv_cycle (s : SysState) (c : Bool) (f : Nat) (h : PacInv s) :
    PacInv (processCycle s c f) := by
  obtain ⟨hids, hlog, hpaced, hrecent⟩ := h
  have hids2 := idsOK_step s (Label.cycle c f) hids
  simp only [step] at hids2
  rcases processCycle_spec s c f with ⟨hq0, he⟩ | ⟨item, rest, lg1, hq, hlg1, hbr⟩
  · rw [he]
    exact ⟨hids, hlog, hpaced, hrecent⟩
  · have hblocked : ((updateRecord s.records item.smsId (pendFun s.time)).find?
        (fun q => q.id == item.smsId)).map (fun q => q.status) ≠ some "QUEUED" := by
      rcases hst0 : recStatusOf s item.smsId with _ | st0
      · rw [find?_id_updateRecord _ _ _ (pendFun s.time) (fun q => rfl),
            recStatusOf_none_find hst0]
        simp
      · rcases recStatusOf_some_find hst0 with ⟨r, hrf, _⟩
        rw [recStatus_update_self (f := pendFun s.time) (fun q => rfl) hrf]
        simp [pendFun]
    have hlog_lg1 : ∀ e ∈ lg1, e.time ≤ s.time := by
      rcases hlg1 with ⟨_, rfl⟩ | ⟨st, _, rfl⟩
      · exact hlog
      · intro e hee
        rcases List.mem_cons.mp hee with rfl | h1
        · exact le_refl _
        · exact hlog e h1
    have hpt : procTimesL lg1 = procTimes s ∨
        (procTimesL lg1 = s.time :: procTimes s ∧
          recStatusOf s item.smsId = some "QUEUED") := by
      rcases hlg1 with ⟨_, rfl⟩ | ⟨st, hs1, rfl⟩
      · exact Or.inl rfl
      · rw [procTimesL_cons, isProcQP_pend]
        by_cases hstq : (st == "QUEUED") = true
        · right
          rw [if_pos hstq]
          exact ⟨rfl, by rw [hs1, eq_of_beq hstq]⟩
        · left
          rw [if_neg hstq]
          rfl
    have hpaced1 : paced (procTimesL lg1) := by
      rcases hpt with heq | ⟨heq, hstq⟩
      · rw [heq]
        exact hpaced
      · rw [heq]
        rcases hpts : procTimes s with _ | ⟨t, ts⟩
        · exact List.Pairwise.cons (fun b hb => absurd hb (List.not_mem_nil b))
            List.Pairwise.nil
        · have hgap : t + DELAY_BETWEEN_MESSAGES ≤ s.time := by
            rcases hrecent t ts hpts with h1 | ⟨it2, rest2, hq2, hst2⟩
            · exact h1
            · rw [hq] at hq2
              injection hq2 with h3 h4
              subst h3
              exact absurd hstq hst2
          exact List.Pairwise.cons (paced_head_bound (hpts ▸ hpaced) hgap) (hpts ▸ hpaced)
    have hle_lg1 : ∀ t ∈ procTimesL lg1, t ≤ s.time := by
      intro t hmem
      rcases hpt with heq | ⟨heq, _⟩
      · exact procTimes_le_time hlog t (heq ▸ hmem)
      · rw [heq] at hmem
        rcases List.mem_cons.mp hmem with rfl | h1
        · exact le_refl _
        · exact procTimes_le_time hlog t h1
    rcases hbr with ⟨hc0, he⟩ | ⟨hc1, hf3, he⟩ | ⟨hc1, hf3, lg2, hlg2, he⟩
    · -- reconnect branch: requeued at the front, ten-second wait
      rw [he] at hids2
      rw [he]
      refine ⟨hids2, ?_, ?_, ?_⟩
      · intro e hee
        have := hlog_lg1 e hee
        show e.time ≤ s.time + 10000
        omega
      · exact hpaced1
      · intro t ts hts
        right
        exact ⟨item, rest, rfl, hblocked⟩
    · -- successful publish: inter-send delay held
      rw [he] at hids2
      rw [he]
      refine ⟨hids2, ?_, ?_, ?_⟩
      · intro e hee
        have := hlog_lg1 e hee
        show e.time ≤ s.time + f * 3000 + DELAY_BETWEEN_MESSAGES
        omega
      · exact hpaced1
      · intro t ts hts
        left
        have hmem : t ∈ procTimesL lg1 := by
          rw [show procTimesL lg1 = t :: ts from hts]
          exact List.mem_cons_self t ts
        have := hle_lg1 t hmem
        show t + DELAY_BETWEEN_MESSAGES ≤ s.time + f * 3000 + DELAY_BETWEEN_MESSAGES
        omega
    · -- exhausted publish: failure entry, delay still held
      have hpt2 : procTimesL lg2 = procTimesL lg1 := by
        rcases hlg2 with rfl | rfl
        · rfl
        · rw [procTimesL_cons, isProcQP_fail]
          simp
      rw [he] at hids2
      rw [he]
      refine ⟨hids2, ?_, ?_, ?_⟩
      · intro e hee
        show e.time ≤ s.time + 6000 + DELAY_BETWEEN_MESSAGES
        rcases hlg2 with rfl | rfl
        · have := hlog_lg1 e hee
          omega
        · rcases List.mem_cons.mp hee with rfl | h1
          · show s.time + 6000 ≤ s.time + 6000 + DELAY_BETWEEN_MESSAGES
            omega
          · have := hlog_lg1 e h1
            omega
      · show paced (procTimesL lg2)
        rw [hpt2]
        exact hpaced1
      · intro t ts hts
        left
        have hts1 : procTimesL lg2 = t :: ts := hts
        rw [hpt2] at hts1
        have hmem : t ∈ procTimesL lg1 := by
          rw [hts1]
          exact List.mem_cons_self t ts
        have := hle_lg1 t hmem
        show t + DELAY_BETWEEN_MESSAGES ≤ s.time + 6000 + DELAY_BETWEEN_MESSAGES
        omega

theorem pacInv_step (s : SysState) (l : Label) (hw : wireOk l = true) (h : PacInv s) :
    PacInv (step s l) := by
  cases l with
  | send p m => exact pacInv_send s p m h
  | retryReq i ok => exact pacInv_retry s i ok h
  | statusMsg m => exact pacInv_status s m hw h
  | incomingMsg m => exact pacInv_incoming s m h
  | cycle c f => exact pacInv_cycle s c f h
  | tick d =>
    obtain ⟨hids, hlog, hpaced, hrecent⟩ := h
    refine ⟨idsOK_step s (Label.tick d) hids, ?_, hpaced, ?_⟩
    · intro e hee
      have := hlog e hee
      show e.time ≤ s.time + d
      omega
    · intro t ts hts
      rcases hrecent t ts hts with h1 | ⟨it, rest, hq, hst⟩
      · left
        show t + DELAY_BETWEEN_MESSAGES ≤ s.time + d
        omega
      · exact Or.inr ⟨it, rest, hq, hst⟩

theorem pacInv_init : PacInv init := by
  refine ⟨idsOK_init, ?_, ?_, ?_⟩
  · intro e hee
    cases hee
  · exact List.Pairwise.nil
  · intro t ts hts
    cases hts

theorem pacInv_run (ls : List Label) (hw : TraceOK ls) : PacInv (run ls) :=
  foldl_invariant_wire pacInv_step ls init hw pacInv_init

/-- C1 (amended): on any wire-respecting execution the processor-driven
QUEUED to PENDING transitions are pairwise at least the inter-send delay
apart, and a cycle whose publish succeeds holds the in-flight window for
the full inter-send delay before it can dequeue again.  The claim as
stated — over all QUEUED to PENDING transitions — is refuted by the
retry endpoint, which publishes outside the queue and its pacing. -/
theorem C1_pacing (ls : List Label) (hw : TraceOK ls) :
    paced (procTimes (run ls)) ∧
    (∀ (s : SysState) (g : Nat), g < 3 → s.smsQueue ≠ [] →
      s.time + DELAY_BETWEEN_MESSAGES ≤ (processCycle s true g).time) := by
  constructor
  · exact (pacInv_run ls hw).2.2.1
  · intro s g hg hne
    rcases hq : s.smsQueue with _ | ⟨item, rest⟩
    · exact absurd hq hne
    · rcases hst : recStatusOf s item.smsId with _ | st <;>
      · have hti : (processCycle s true g).time =
            s.time + g * 3000 + DELAY_BETWEEN_MESSAGES := by
          simp [processCycle, hq, hst, hg]
        rw [hti]
        omega

/-- C1 witness: the amended pacing statement evaluated on the round-trip
trace. -/
theorem C1_pacing_witness :
    TraceOK okTrace ∧
    (paced (procTimes (run okTrace)) ∧
     (∀ (s : SysState) (g : Nat), g < 3 → s.smsQueue ≠ [] →
       s.time + DELAY_BETWEEN_MESSAGES ≤ (processCycle s true g).time)) :=
  ⟨by decide, C1_pacing okTrace (by decide)⟩

/-! C7 — what retry actually requires and does. -/

/-- C7 counterexample: a QUEUED (never FAILED) row is retried
successfully, and nothing is appended to the delivery queue — the
endpoint publishes directly, so both halves of the stated claim fail. -/
theorem C7_counterexample : ¬ claimC7Stated := by
  intro h
  exact absurd
    ((h cexTraceC4 0 true
      { id := 0, phoneNumber := "+15550001", message := "hi", status := "QUEUED",
        retryCount := 0, errorMsg := none, sentAt := none, createdAt := 0, updatedAt := 0 }
      (by decide) (by decide)).1.1)
    (by decide)

/-- C7 (amended): retry succeeds exactly when the row exists, is not
SENT — not only when FAILED — still has retry budget, and the direct
broker publish succeeds; on success the in-memory queue is untouched (the
publish bypasses the processor), no row is created or removed, and the
row is rewritten to PENDING with retryCount incremented and errorMessage
cleared; every other case is rejected. -/
theorem C7_retry_semantics (s : SysState) (i : Nat) (ok : Bool) :
    ((retrySMS s i ok).2 = RetryResult.retryQueued ↔
      (ok = true ∧ ∃ r, findRecord s i = some r ∧ r.status ≠ "SENT" ∧
        r.retryCount < MAX_RETRIES)) ∧
    (∀ r, findRecord s i = some r → r.status ≠ "SENT" → r.retryCount < MAX_RETRIES →
      (retrySMS s i true).1.smsQueue = s.smsQueue ∧
      (retrySMS s i true).1.records.length = s.records.length ∧
      findRecord (retrySMS s i true).1 i =
        some
          { r with status := "PENDING", retryCount := r.retryCount + 1,
                   errorMsg := none, updatedAt := s.time }) := by
  constructor
  · constructor
    · intro hres
      rcases hfr : findRecord s i with _ | r
      · simp [retrySMS, hfr] at hres
      · by_cases hs : r.status = "SENT"
        · simp [retrySMS, hfr, hs] at hres
        · by_cases hc : MAX_RETRIES ≤ r.retryCount
          · simp [retrySMS, hfr, hs, hc] at hres
          · cases ok
            · simp [retrySMS, hfr, hs, hc] at hres
            · exact ⟨rfl, r, rfl, hs, by omega⟩
    · rintro ⟨rfl, r, hfr, hs, hc⟩
      simp [retrySMS, hfr, hs, Nat.not_le.mpr hc]
  · intro r hfr hs hc
    have hfr2 : List.find? (fun (q : SmsLog) => q.id == i) s.records = some r := hfr
    have hone : (r.id == i) = true :=
      List.find?_some (p := fun (q : SmsLog) => q.id == i) hfr2
    have heq : r.id = i := by simpa using hone
    have hstate : (retrySMS s i true).1 =
        { s with
            records := updateRecord s.records i (retryOkFun s.time r),
            log := ({ time := s.time, smsId := i, fromStatus := r.status,
                      toStatus := "PENDING",
                      source := .retryEndpoint } : StatusChange) :: s.log } := by
      simp [retrySMS, hfr, hs, Nat.not_le.mpr hc]
    refine ⟨by rw [hstate], ?_, ?_⟩
    · rw [hstate]
      show (updateRecord s.records i (retryOkFun s.time r)).length = s.records.length
      unfold updateRecord
      exact List.length_map _ _
    · rw [hstate]
      show List.find? (fun (q : SmsLog) => q.id == i)
        (updateRecord s.records i (retryOkFun s.time r)) = _
      rw [find?_id_updateRecord _ i i (retryOkFun s.time r) (fun q => rfl), hfr2]
      simp [heq, retryOkFun]

/-- C7 witness: the amended retry semantics evaluated on a concrete
queued row. -/
theorem C7_retry_semantics_witness :
    findRecord (run cexTraceC4) 0 =
      some { id := 0, phoneNumber := "+15550001", message := "hi", status := "QUEUED",
             retryCount := 0, errorMsg := none, sentAt := none,
             createdAt := 0, updatedAt := 0 } ∧
    ((retrySMS (run cexTraceC4) 0 true).1.smsQueue = (run cexTraceC4).smsQueue ∧
     (retrySMS (run cexTraceC4) 0 true).1.records.length =
       (run cexTraceC4).records.length ∧
     findRecord (retrySMS (run cexTraceC4) 0 true).1 0 =
       some { id := 0, phoneNumber := "+15550001", message := "hi", status := "PENDING",
              retryCount := 1, errorMsg := none, sentAt := none,
              createdAt := 0, updatedAt := 0 }) :=
  ⟨by decide,
   (C7_retry_semantics (run cexTraceC4) 0 true).2
    { id := 0, phoneNumber := "+15550001", message := "hi", status := "QUEUED",
      retryCount := 0, errorMsg := none, sentAt := none, createdAt := 0, updatedAt := 0 }
    (by decide) (by decide) (by decide)⟩

end ChickSMS